import Mathlib

/-!
Verification of the cgroup subsystem of the rktlet repository
(`vendor/github.com/coreos/rkt/common/cgroup/cgroup.go`), as a shallow
embedding in Lean 4.

Conventions of the embedding:
* Go functions become Lean functions; filesystem and kernel interaction is
  modelled by explicit environment records (`KernelEnv`, `FsEnv`) supplying
  the result of every external call, and by traces of performed operations
  (`FsOp`), so the order and outcome of every side effect is visible.
* Go `int`/`int64` become `Int` (the host is assumed 64-bit, as on every
  platform rkt supports); Go integer division truncates toward zero, which
  is `Int.tdiv`.
* `filepath.Join` is modelled as slash-concatenation without path cleaning;
  all paths compared in this development are built the same way on both
  sides, so cleaning is immaterial.
* Fallible Go functions returning `(T, error)` become `Except String T`;
  a call of a `nil` map entry (a Go panic) is a distinct `GoResult.panics`
  outcome.
-/

deriving instance DecidableEq for Except

namespace Cgroup

/-- Go's `strings.Split(s, sep)` for a one-character separator, on the
character list: every occurrence splits, empty fields are kept, and the
empty input gives one empty field. -/
def splitChar (sep : Char) : List Char → List (List Char)
  | [] => [[]]
  | c :: rest =>
    let r := splitChar sep rest
    if c = sep then [] :: r
    else
      match r with
      | [] => [[c]]
      | g :: gs => (c :: g) :: gs

/-- Go's `strings.Split(s, sep)` for a one-character separator (structural,
unlike `String.splitOn`, so that concrete runs reduce). -/
def splitOnChar (sep : Char) (s : String) : List String :=
  (splitChar sep s.data).map String.mk

/-- Go's `strings.TrimSpace` (structural). -/
def trimSpace (s : String) : String :=
  String.mk
    (((s.data.dropWhile Char.isWhitespace).reverse.dropWhile
      Char.isWhitespace).reverse)

/-- Modelled from the spec: the vendored `k8s.io/kubernetes/pkg/api/resource`
package is not under `src/`.  The spec describes a Resource Quantity as an
"immutable numeric value with canonical unit (milli-units for CPU, bytes for
memory)", with the invariant that the CPU value must not exceed a defined
maximum milli-value.  We model a Quantity by that canonical-unit numeric
value: for a CPU quantity the stored number is its milli-value, for a memory
quantity it is its byte count. -/
structure Quantity where
  value : Int
deriving DecidableEq, Repr

/-- Modelled from the spec: `Quantity.Value` reads the canonical-unit numeric
value (the milli-value for CPU, the byte count for memory). -/
def Quantity.Value (q : Quantity) : Int := q.value

/-- Modelled from the spec: for a CPU quantity the canonical unit is
milli-units, so `MilliValue` reads the same stored number. -/
def Quantity.MilliValue (q : Quantity) : Int := q.value

/-- Modelled from the spec: the "defined maximum milli-value"
(`resource.MaxMilliValue = int64(((1 << 63) - 1) / 1000)`). -/
def MaxMilliValue : Int := 9223372036854775

/-- Modelled from the spec: a Unit Option is an "opaque key/value accepted by
the process supervisor" (`unit.UnitOption` of the vendored go-systemd
package, which is not under `src/`): a section, a name and a value. -/
structure UnitOption where
  sec : String
  name : String
  value : String
deriving DecidableEq, Repr

/-- `unit.NewUnitOption(section, name, value)`. -/
def NewUnitOption (sec name value : String) : UnitOption := ⟨sec, name, value⟩

/-- `addCpuLimit` (cgroup.go line 58): reject a limit whose `Value()` exceeds
`resource.MaxMilliValue`, otherwise append a `CPUQuota` option whose value is
`MilliValue()/10` (Go division, truncation toward zero) as a percentage. -/
def addCpuLimit (opts : List UnitOption) (limit : Quantity) :
    Except String (List UnitOption) :=
  if MaxMilliValue < limit.Value then
    .error ("cpu limit exceeds the maximum millivalue: " ++ toString limit.value)
  else
    .ok (opts ++ [NewUnitOption "Service" "CPUQuota"
      (toString (Int.tdiv limit.MilliValue 10) ++ "%")])

/-- `addMemoryLimit` (cgroup.go line 67): append a `MemoryLimit` option whose
value is the quantity's `Value()` (its byte count), never failing. -/
def addMemoryLimit (opts : List UnitOption) (limit : Quantity) :
    Except String (List UnitOption) :=
  .ok (opts ++ [NewUnitOption "Service" "MemoryLimit" (toString limit.Value)])

/-- The `isolatorFuncs` table (cgroup.go line 47): only `cpu` and `memory`
have entries; looking up any other key yields Go's zero value, a `nil`
function (here `none`). -/
def isolatorFuncs (isolator : String) :
    Option (List UnitOption → Quantity → Except String (List UnitOption)) :=
  if isolator = "cpu" then some addCpuLimit
  else if isolator = "memory" then some addMemoryLimit
  else none

/-- The `v1CgroupControllerRWFiles` table (cgroup.go line 51). -/
def v1CgroupControllerRWFiles (controller : String) : Option (List String) :=
  if controller = "memory" then some ["memory.limit_in_bytes"]
  else if controller = "cpu" then some ["cpu.cfs_quota_us"]
  else if controller = "devices" then some ["devices.allow", "devices.deny"]
  else none

/-- `CGROUP2_SUPER_MAGIC` (cgroup.go line 43). -/
def Cgroup2fsMagicNumber : Int := 0x63677270

/-- Kernel state consulted by the isolator-support check: the filesystem
magic number of `<path>` as returned by `statfs` (or an error), the first
line of `/sys/fs/cgroup/cgroup.controllers` (or an open error), and whether
`os.Stat(path)` fails with "does not exist". -/
structure KernelEnv where
  cgroupFsMagic : String → Except String Int
  controllersFirstLine : Except String String
  statNotExist : String → Bool

/-- `IsCgroupUnified` (cgroup.go line 146): compare the magic number of
`<root>/sys/fs/cgroup` against the v2 constant. -/
def IsCgroupUnified (env : KernelEnv) (root : String) : Except String Bool :=
  match env.cgroupFsMagic (root ++ "/sys/fs/cgroup") with
  | .error e => .error e
  | .ok t => .ok (t = Cgroup2fsMagicNumber)

/-- `GetEnabledV2Controllers` (cgroup.go line 161): split the single line of
`cgroup.controllers` on spaces. -/
def GetEnabledV2Controllers (env : KernelEnv) : Except String (List String) :=
  match env.controllersFirstLine with
  | .error e => .error e
  | .ok line => .ok (splitOnChar ' ' line)

/-- `IsIsolatorSupported` (cgroup.go line 113): on a unified (v2) kernel the
isolator must be among the enabled controllers; on v1 every control file
listed for it in `v1CgroupControllerRWFiles` must exist, and an isolator
absent from that table is unsupported. -/
def IsIsolatorSupported (env : KernelEnv) (isolator : String) :
    Except String Bool :=
  match IsCgroupUnified env "/" with
  | .error e => .error ("error determining cgroup version: " ++ e)
  | .ok true =>
    match GetEnabledV2Controllers env with
    | .error e => .error ("error determining enabled controllers: " ++ e)
    | .ok controllers => .ok (controllers.contains isolator)
  | .ok false =>
    match v1CgroupControllerRWFiles isolator with
    | some files =>
      .ok (files.all fun f =>
        !env.statNotExist ("/sys/fs/cgroup/" ++ isolator ++ "/" ++ f))
    | none => .ok false

/-- Outcome of a Go call that may return a value, return an error, or panic
(the latter happens when a `nil` function drawn from a map is invoked). -/
inductive GoResult (α : Type) where
  | ok : α → GoResult α
  | error : String → GoResult α
  | panics : GoResult α
deriving DecidableEq, Repr

/-- `MaybeAddIsolator` (cgroup.go line 90): a `nil` limit is a no-op; an
error from the support check propagates; a supported isolator dispatches
through `isolatorFuncs` (a missing entry is a `nil`-function call, i.e. a
panic); an unsupported isolator only writes a diagnostic to stderr (not
modelled) and returns the options unchanged. -/
def MaybeAddIsolator (env : KernelEnv) (opts : List UnitOption)
    (isolator : String) (limit : Option Quantity) : GoResult (List UnitOption) :=
  match limit with
  | none => .ok opts
  | some l =>
    match IsIsolatorSupported env isolator with
    | .error e => .error e
    | .ok true =>
      match isolatorFuncs isolator with
      | none => .panics
      | some f =>
        match f opts l with
        | .error e => .error e
        | .ok newOpts => .ok newOpts
    | .ok false => .ok opts

/-!
### v1 controller enumeration (`parseV1Cgroups`, cgroup.go line 209)

`fmt.Sscanf(line, "%s %d %d %d", ...)` is modelled character by character:
`%s` skips whitespace and reads a maximal non-whitespace run (failing on
end of input), `%d` skips whitespace and reads an optional sign followed by
a maximal digit run (failing if there is no digit).  The four scan targets
are freshly zero-initialised per line and keep their zero value from the
first failing verb on, exactly as in Go; the error returned by `Sscanf` is
discarded by the source.
-/

/-- Whitespace for Go's space-separated scanning (the table lines hold only
spaces and tabs). -/
def isScanWS (c : Char) : Bool := c = ' ' || c = '\t'

/-- `%s`: skip whitespace, then read a maximal non-whitespace run. -/
def scanToken (cs : List Char) : Option (String × List Char) :=
  let rest := cs.dropWhile isScanWS
  let tok := rest.takeWhile (fun c => !isScanWS c)
  if tok.isEmpty then none else some (String.mk tok, rest.drop tok.length)

/-- Digit run to a natural number, most significant first. -/
def digitsToNat (ds : List Char) : Nat :=
  ds.foldl (fun acc c => acc * 10 + (c.toNat - '0'.toNat)) 0

/-- `%d`: skip whitespace, optional sign, then a maximal digit run. -/
def scanInt (cs : List Char) : Option (Int × List Char) :=
  let rest := cs.dropWhile isScanWS
  let (sign, rest') : Int × List Char :=
    match rest with
    | '-' :: r => (-1, r)
    | '+' :: r => (1, r)
    | r => (1, r)
  let ds := rest'.takeWhile Char.isDigit
  if ds.isEmpty then none
  else some (sign * (digitsToNat ds : Int), rest'.drop ds.length)

/-- One line of the controller table through
`fmt.Sscanf(line, "%s %d %d %d", &controller, &hierarchy, &num, &enabled)`:
the tuple (controller, hierarchy, num, enabled), zero-valued from the first
failing verb on. -/
def scanLine (l : String) : String × Int × Int × Int :=
  match scanToken l.data with
  | none => ("", 0, 0, 0)
  | some (controller, r1) =>
    match scanInt r1 with
    | none => (controller, 0, 0, 0)
    | some (hierarchy, r2) =>
      match scanInt r2 with
      | none => (controller, hierarchy, 0, 0)
      | some (num, r3) =>
        match scanInt r3 with
        | none => (controller, hierarchy, num, 0)
        | some (enabled, _) => (controller, hierarchy, num, enabled)

/-- The Controller Hierarchy Map: hierarchy id to co-mounted controller
names.  Go's `map[int][]string` is modelled as an association list in
insertion (discovery) order; the claims proved below depend only on
per-key content, never on Go's randomised iteration order. -/
abbrev CgMap := List (Int × List String)

/-- Association-list lookup for `CgMap`. -/
def lookupCg : CgMap → Int → Option (List String)
  | [], _ => none
  | (k, v) :: rest, h => if k = h then some v else lookupCg rest h

/-- `cgroups[hierarchy] = append(cgroups[hierarchy], controller)` (creating
the entry when absent): append to an existing key, otherwise add a new
entry. -/
def insertCg : CgMap → Int → String → CgMap
  | [], h, c => [(h, [c])]
  | (k, cs) :: rest, h, c =>
    if k = h then (k, cs ++ [c]) :: rest else (k, cs) :: insertCg rest h c

/-- The body of the scan loop of `parseV1Cgroups`: scan the line and record
the controller under its hierarchy exactly when the enabled flag is 1. -/
def cgStep (acc : CgMap) (l : String) : CgMap :=
  match scanLine l with
  | (controller, hierarchy, _, enabled) =>
    if enabled = 1 then insertCg acc hierarchy controller else acc

/-- `parseV1Cgroups` (cgroup.go line 209): the first line (a comment header)
is consumed and discarded; every further line goes through `cgStep`.  In
this pure model of an already-read file the scanner cannot fail, so the
`sc.Err()` branch is unreachable and the result is the map itself. -/
def parseV1Cgroups (lines : List String) : CgMap :=
  match lines with
  | [] => []
  | _ :: rest => rest.foldl cgStep []

/-- `GetEnabledV1Cgroups` (cgroup.go line 241): a failure to open
`/proc/cgroups` is returned as-is; otherwise the parsed map. -/
def GetEnabledV1Cgroups (file : Except String (List String)) :
    Except String CgMap :=
  match file with
  | .error e => .error e
  | .ok lines => .ok (parseV1Cgroups lines)

/-- `strings.Join(cs, ",")`. -/
def joinComma (cs : List String) : String := String.intercalate "," cs

/-- `GetV1ControllerDirs` (cgroup.go line 259): one comma-joined directory
name per hierarchy (list order standing in for Go's map iteration order;
no claim below depends on the order across hierarchies). -/
def GetV1ControllerDirs (m : CgMap) : List String :=
  m.map fun p => joinComma p.2

/-- Go map assignment `symlinks[ln] = tgt`: replace an existing key in
place, otherwise add a new entry. -/
def insertSym : List (String × String) → String → String → List (String × String)
  | [], k, v => [(k, v)]
  | (k', v') :: rest, k, v =>
    if k' = k then (k, v) :: rest else (k', v') :: insertSym rest k v

/-- Association-list lookup for the symlink map. -/
def lookupSym : List (String × String) → String → Option String
  | [], _ => none
  | (k, v) :: rest, c => if k = c then some v else lookupSym rest c

/-- One hierarchy's contribution to `getV1ControllerSymlinks`: nothing for a
single-controller hierarchy, otherwise one entry per member pointing at the
joint directory name. -/
def symStep (acc : List (String × String)) (p : Int × List String) :
    List (String × String) :=
  if 1 < p.2.length then
    p.2.foldl (fun a ln => insertSym a ln (joinComma p.2)) acc
  else acc

/-- `getV1ControllerSymlinks` (cgroup.go line 268). -/
def getV1ControllerSymlinks (m : CgMap) : List (String × String) :=
  m.foldl symStep []

/-- All controller names of a map, in order. -/
def allControllers : CgMap → List String
  | [] => []
  | p :: rest => p.2 ++ allControllers rest

/-- The controller names of hierarchies holding more than one controller. -/
def multiControllers : CgMap → List String
  | [] => []
  | p :: rest =>
    (if 1 < p.2.length then p.2 else []) ++ multiControllers rest

/-!
### v1 cgroup-path resolution (`parseV1CgroupController`, cgroup.go line 297)
-/

/-- `strings.SplitN(s, ":", 3)`: at most three fields, the last keeping any
further colons. -/
def splitN3Colon (s : String) : List String :=
  let parts := splitOnChar ':' s
  if parts.length ≤ 3 then parts
  else parts.take 2 ++ [String.intercalate ":" (parts.drop 2)]

/-- Does the comma-joined controller list (second colon field) of a line
contain the requested controller? -/
def lineHasController (l controller : String) : Bool :=
  (splitOnChar ',' ((splitN3Colon l).getD 1 "")).contains controller

/-- `parseV1CgroupController` (cgroup.go line 297), over the lines of an
already-read membership file: return the first line splitting into at least
three colon fields whose controller list contains the requested controller;
fail on the first line with fewer than three fields; fail with "not found"
when the lines run out. -/
def parseV1CgroupController (lines : List String) (controller : String) :
    Except String (List String) :=
  match lines with
  | [] => .error ("controller \"" ++ controller ++ "\" not found")
  | l :: rest =>
    let parts := splitN3Colon l
    if parts.length < 3 then .error "error parsing /proc/self/cgroup"
    else if (splitOnChar ',' (parts.getD 1 "")).contains controller then .ok parts
    else parseV1CgroupController rest controller

/-- `GetOwnV1CgroupPath` (cgroup.go line 323): the third colon field of the
matched line of the process's own membership file. -/
def GetOwnV1CgroupPath (lines : List String) (controller : String) :
    Except String String :=
  match parseV1CgroupController lines controller with
  | .error e => .error e
  | .ok parts => .ok (parts.getD 2 "")

/-- `GetV1CgroupPathByPid` (cgroup.go line 333): same resolution over the
membership file of the given pid (the pid only selects which file is read,
which in this pure model is the `lines` argument). -/
def GetV1CgroupPathByPid (pid : Int) (lines : List String)
    (controller : String) : Except String String :=
  let _ := pid
  GetOwnV1CgroupPath lines controller

/-- `getV1ControllerRWFiles` (cgroup.go line 283): split the joint directory
name on commas; the first member present in the allow-list table yields its
files plus `cgroup.procs`; otherwise no files. -/
def getV1ControllerRWFilesAux : List String → List String
  | [] => []
  | p :: rest =>
    match v1CgroupControllerRWFiles p with
    | some files => files ++ ["cgroup.procs"]
    | none => getV1ControllerRWFilesAux rest

def getV1ControllerRWFiles (controller : String) : List String :=
  getV1ControllerRWFilesAux (splitOnChar ',' controller)

/-!
### The filesystem model for the Hierarchy Builder and RW-Window Carver

Each syscall's outcome is supplied by an `FsEnv`; each performed call is
recorded as an `FsOp` in a trace, in execution order, together with its
outcome.  `syscall.Mount` flags are rendered as a descriptive string so the
distinct mount shapes of the source stay distinct in the trace.
-/

/-- Outcome of `syscall.Mount`: success, `EBUSY`, or another error. -/
inductive MountResult where
  | ok
  | ebusy
  | err (msg : String)
deriving DecidableEq, Repr

/-- The error text carried by a failed mount (`EBUSY` stringifies to the
errno message). -/
def mountResErr : MountResult → Option String
  | .ok => none
  | .ebusy => some "device or resource busy"
  | .err e => some e

/-- Results of the filesystem calls made by the builder and carver. -/
structure FsEnv where
  mkdirAll : String → Option String
  mount : String → String → String → String → String → MountResult
  symlinkRes : String → String → Option String
  statNotExist : String → Bool
  readFile : String → Option String
  writeFile : String → String → Option String

/-- A performed filesystem operation together with its outcome. -/
inductive FsOp where
  | mkdir (path : String) (res : Option String)
  | mount (flags src tgt fstype data : String) (res : MountResult)
  | symlink (tgt ln : String) (res : Option String)
  | unmount (path : String)
  | readf (path : String) (res : Option String)
  | write (path data : String) (res : Option String)
deriving DecidableEq, Repr

/-- `errwrap.Wrap(fmt.Errorf("error mounting %q", p), err)`. -/
def errMounting (p e : String) : String :=
  "error mounting \"" ++ p ++ "\": " ++ e

/-- `errwrap.Wrap(fmt.Errorf("error remounting RO %q", p), err)`. -/
def errRemountRO (p e : String) : String :=
  "error remounting RO \"" ++ p ++ "\": " ++ e

/-- `errwrap.Wrap(fmt.Errorf("error bind mounting %q", p), err)`. -/
def errBindMounting (p e : String) : String :=
  "error bind mounting \"" ++ p ++ "\": " ++ e

/-- `errwrap.Wrap(errors.New("error creating symlink"), err)`. -/
def errSymlink (e : String) : String := "error creating symlink: " ++ e

/-- Flag strings naming the mount shapes of the source. -/
def roRemountFlags : String := "bind,remount,nosuid,noexec,nodev,rdonly"

/-- `mountFsRO` (cgroup.go line 72): bind-remount a mount point onto itself
read-only, wrapping any failure with the mount point. -/
def mountFsRO (env : FsEnv) (mountPoint : String) :
    List FsOp × Option String :=
  let r := env.mount roRemountFlags mountPoint mountPoint "" ""
  ([FsOp.mount roRemountFlags mountPoint mountPoint "" "" r],
    match mountResErr r with
    | some e => some (errRemountRO mountPoint e)
    | none => none)

/-- The per-controller mount loop of `CreateV1Cgroups` (cgroup.go line 435):
make each controller directory and mount a cgroupfs there with the joint
directory name as controller selector; any failure aborts the loop (the
mount failure path-wrapped, the mkdir failure as-is). -/
def mountControllers (env : FsEnv) (root : String) :
    List String → List FsOp × Option String
  | [] => ([], none)
  | c :: rest =>
    let cPath := root ++ "/sys/fs/cgroup" ++ "/" ++ c
    match env.mkdirAll cPath with
    | some e => ([FsOp.mkdir cPath (some e)], some e)
    | none =>
      let r := env.mount "nosuid,noexec,nodev" "cgroup" cPath "cgroup" c
      let op := FsOp.mount "nosuid,noexec,nodev" "cgroup" cPath "cgroup" c r
      match mountResErr r with
      | some e => ([FsOp.mkdir cPath none, op], some (errMounting cPath e))
      | none =>
        let (tr, res) := mountControllers env root rest
        (FsOp.mkdir cPath none :: op :: tr, res)

/-- The symlink loop of `CreateV1Cgroups` (cgroup.go line 451): one symlink
per co-mounted controller, aborting on the first failure with a wrapped (but
pathless) error. -/
def makeSymlinks (env : FsEnv) (cgroupTmpfs : String) :
    List (String × String) → List FsOp × Option String
  | [] => ([], none)
  | (ln, tgt) :: rest =>
    let lnPath := cgroupTmpfs ++ "/" ++ ln
    match env.symlinkRes tgt lnPath with
    | some e => ([FsOp.symlink tgt lnPath (some e)], some (errSymlink e))
    | none =>
      let (tr, res) := makeSymlinks env cgroupTmpfs rest
      (FsOp.symlink tgt lnPath none :: tr, res)

/-- The tmpfs mount options: `mode=755`, with the optional SELinux-style
context appended when a mount context is supplied. -/
def tmpfsOptions (mountContext : String) : String :=
  if mountContext = "" then "mode=755"
  else "mode=755,context=\"" ++ mountContext ++ "\""

/-- The part of `CreateV1Cgroups` following the sysfs step (reached both
when that mount succeeds and when it fails with exactly `EBUSY`): mkdir and
mount the tmpfs cgroup root, mount every controller hierarchy, create the
co-mount symlinks, reserve the `systemd` directory, and finally bind-remount
the cgroup tmpfs read-only. -/
def createAfterSysfs (env : FsEnv) (root : String) (m : CgMap)
    (mountContext : String) : List FsOp × Option String :=
  let controllers := GetV1ControllerDirs m
  let cgroupTmpfs := root ++ "/sys/fs/cgroup"
  match env.mkdirAll cgroupTmpfs with
  | some e => ([FsOp.mkdir cgroupTmpfs (some e)], some e)
  | none =>
    let options := tmpfsOptions mountContext
    let rt := env.mount "nosuid,noexec,nodev,strictatime" "tmpfs"
      cgroupTmpfs "tmpfs" options
    let opT := FsOp.mount "nosuid,noexec,nodev,strictatime" "tmpfs"
      cgroupTmpfs "tmpfs" options rt
    match mountResErr rt with
    | some e =>
      ([FsOp.mkdir cgroupTmpfs none, opT], some (errMounting cgroupTmpfs e))
    | none =>
      match mountControllers env root controllers with
      | (trC, some e) => ([FsOp.mkdir cgroupTmpfs none, opT] ++ trC, some e)
      | (trC, none) =>
        match makeSymlinks env cgroupTmpfs (getV1ControllerSymlinks m) with
        | (trS, some e) =>
          ([FsOp.mkdir cgroupTmpfs none, opT] ++ trC ++ trS, some e)
        | (trS, none) =>
          let sysd := root ++ "/sys/fs/cgroup/systemd"
          match env.mkdirAll sysd with
          | some e =>
            ([FsOp.mkdir cgroupTmpfs none, opT] ++ trC ++ trS ++
              [FsOp.mkdir sysd (some e)], some e)
          | none =>
            let (trRO, resRO) := mountFsRO env cgroupTmpfs
            ([FsOp.mkdir cgroupTmpfs none, opT] ++ trC ++ trS ++
              [FsOp.mkdir sysd none] ++ trRO, resRO)

/-- `CreateV1Cgroups` (cgroup.go line 399): mkdir and mount a private sysfs,
tolerating exactly `EBUSY` (since `/sys` may already be mounted on the host)
and failing on any other mount error with a path-wrapped message; then the
rest of the build (`createAfterSysfs`).  Every failure aborts immediately;
nothing is ever unmounted. -/
def CreateV1Cgroups (env : FsEnv) (root : String) (m : CgMap)
    (mountContext : String) : List FsOp × Option String :=
  let sys := root ++ "/sys"
  match env.mkdirAll sys with
  | some e => ([FsOp.mkdir sys (some e)], some e)
  | none =>
    let rs := env.mount "nosuid,noexec,nodev" "sysfs" sys "sysfs" ""
    let opS := FsOp.mount "nosuid,noexec,nodev" "sysfs" sys "sysfs" "" rs
    match rs with
    | .err e => ([FsOp.mkdir sys none, opS], some (errMounting sys e))
    | _ =>
      let (tr, res) := createAfterSysfs env root m mountContext
      (FsOp.mkdir sys none :: opS :: tr, res)

/-- `filepath.Dir` on the slash-joined paths of this model: everything
before the last slash (`"."` when there is none). -/
def filepathDir (p : String) : String :=
  let parts := splitOnChar '/' p
  if parts.length ≤ 1 then "." else String.intercalate "/" parts.dropLast

/-- The child knob file `<cpusetPath>/system.slice/<knob>` written by
`fixCpusetKnobs`. -/
def childKnobFile (cpusetPath knob : String) : String :=
  (cpusetPath ++ "/system.slice") ++ "/" ++ knob

/-- The parent knob file `<dir of system.slice>/<knob>` read by
`fixCpusetKnobs`. -/
def parentKnobFile (cpusetPath knob : String) : String :=
  filepathDir (cpusetPath ++ "/system.slice") ++ "/" ++ knob

/-- One knob of `fixCpusetKnobs` (cgroup.go line 363): read the child file
(give up silently on failure); leave a non-blank child alone; otherwise read
the parent and, if readable, write its contents to the child twice in a row
(the double write works around a kernel race), ignoring write errors. -/
def fixKnob (env : FsEnv) (cpusetPath knob : String) : List FsOp :=
  let childFile := childKnobFile cpusetPath knob
  let parentFile := parentKnobFile cpusetPath knob
  match env.readFile childFile with
  | none => [FsOp.readf childFile none]
  | some data =>
    if trimSpace data ≠ "" then [FsOp.readf childFile (some data)]
    else
      match env.readFile parentFile with
      | none => [FsOp.readf childFile (some data), FsOp.readf parentFile none]
      | some pdata =>
        [FsOp.readf childFile (some data), FsOp.readf parentFile (some pdata),
         FsOp.write childFile pdata (env.writeFile childFile pdata),
         FsOp.write childFile pdata (env.writeFile childFile pdata)]

/-- `fixCpusetKnobs` (cgroup.go line 359): best-effort creation of
`system.slice` in the cpuset hierarchy followed by the two knob fixes;
being a workaround it reports no failure (it returns only a trace). -/
def fixCpusetKnobs (env : FsEnv) (cpusetPath : String) : List FsOp :=
  let cgroupPathFix := cpusetPath ++ "/system.slice"
  FsOp.mkdir cgroupPathFix (env.mkdirAll cgroupPathFix) ::
    (fixKnob env cpusetPath "cpuset.mems" ++ fixKnob env cpusetPath "cpuset.cpus")

/-- The allow-listed-file loop of `RemountV1CgroupsRO` (cgroup.go line 492):
skip a file the kernel does not provide, self-bind-mount each existing one
(path-wrapped failure aborts). -/
def bindRWFiles (env : FsEnv) (appCgroup : String) :
    List String → List FsOp × Option String
  | [] => ([], none)
  | f :: rest =>
    let p := appCgroup ++ "/" ++ f
    if env.statNotExist p then bindRWFiles env appCgroup rest
    else
      let r := env.mount "bind" p p "" ""
      let op := FsOp.mount "bind" p p "" "" r
      match mountResErr r with
      | some e => ([op], some (errBindMounting p e))
      | none =>
        let (tr, res) := bindRWFiles env appCgroup rest
        (op :: tr, res)

/-- The per-service loop of `RemountV1CgroupsRO` (cgroup.go line 487):
create each app cgroup directory (raw failure aborts) and keep its
allow-listed knob files bind-mounted over themselves. -/
def carveServices (env : FsEnv) (subcgroupPath c : String) :
    List String → List FsOp × Option String
  | [] => ([], none)
  | svc :: rest =>
    let appCgroup := subcgroupPath ++ "/" ++ svc
    match env.mkdirAll appCgroup with
    | some e => ([FsOp.mkdir appCgroup (some e)], some e)
    | none =>
      match bindRWFiles env appCgroup (getV1ControllerRWFiles c) with
      | (trB, some e) => (FsOp.mkdir appCgroup none :: trB, some e)
      | (trB, none) =>
        let (tr, res) := carveServices env subcgroupPath c rest
        (FsOp.mkdir appCgroup none :: (trB ++ tr), res)

/-- The per-controller loop of `RemountV1CgroupsRO` (cgroup.go line 476):
for the directory named exactly `cpuset`, first run the knob workaround;
then carve the per-service RW windows and re-mount the controller directory
read-only. -/
def carveControllers (env : FsEnv) (cgroupTmpfs subcgroup : String)
    (svcs : List String) : List String → List FsOp × Option String
  | [] => ([], none)
  | c :: rest =>
    let cPath := cgroupTmpfs ++ "/" ++ c
    let subcgroupPath := cPath ++ "/" ++ subcgroup ++ "/system.slice"
    let trFix := if c = "cpuset" then fixCpusetKnobs env cPath else []
    match carveServices env subcgroupPath c svcs with
    | (trS, some e) => (trFix ++ trS, some e)
    | (trS, none) =>
      match mountFsRO env cPath with
      | (trRO, some e) => (trFix ++ trS ++ trRO, some e)
      | (trRO, none) =>
        let (tr, res) := carveControllers env cgroupTmpfs subcgroup svcs rest
        (trFix ++ trS ++ trRO ++ tr, res)

/-- `RemountV1CgroupsRO` (cgroup.go line 470): carve the RW windows under
every controller directory, then bind-remount `<root>/sys` read-only. -/
def RemountV1CgroupsRO (env : FsEnv) (root : String) (m : CgMap)
    (subcgroup : String) (serviceNames : List String) :
    List FsOp × Option String :=
  let controllers := GetV1ControllerDirs m
  let cgroupTmpfs := root ++ "/sys/fs/cgroup"
  let sysPath := root ++ "/sys"
  match carveControllers env cgroupTmpfs subcgroup serviceNames controllers with
  | (tr, some e) => (tr, some e)
  | (tr, none) =>
    let (trRO, resRO) := mountFsRO env sysPath
    (tr ++ trRO, resRO)

/-- The values written to path `p` along a trace, in order. -/
def writesTo (tr : List FsOp) (p : String) : List String :=
  tr.filterMap fun op =>
    match op with
    | .write q d _ => if q = p then some d else none
    | _ => none

/-!
### Concrete kernel environments used as witnesses
-/

/-- A legacy (v1) kernel environment in which every control file exists. -/
def envV1All : KernelEnv :=
  ⟨fun _ => .ok 0, .ok "", fun _ => false⟩

/-- A legacy (v1) kernel environment in which no control file exists. -/
def envV1None : KernelEnv :=
  ⟨fun _ => .ok 0, .ok "", fun _ => true⟩

/-!
### Claim theorems: the Isolator Translator
-/

/-- C1 (amended): on a kernel supporting the `cpu` isolator, for every CPU
quantity whose milli-value is at most the defined maximum milli-value,
`MaybeAddIsolator` (via `addCpuLimit`) appends exactly one `CPUQuota` option
whose value is the milli-value divided by 10 with truncation toward zero
(which agrees with `floor(milli/10)` on every nonnegative quantity),
expressed as a percentage; for every CPU quantity whose milli-value exceeds
that maximum, the call returns a validation error. -/
theorem cpu_quota_amended (env : KernelEnv) (opts : List UnitOption)
    (q : Quantity) (hsup : IsIsolatorSupported env "cpu" = .ok true) :
    (q.value ≤ MaxMilliValue →
      MaybeAddIsolator env opts "cpu" (some q) =
        .ok (opts ++ [NewUnitOption "Service" "CPUQuota"
          (toString (Int.tdiv q.value 10) ++ "%")])) ∧
    (MaxMilliValue < q.value →
      ∃ e, MaybeAddIsolator env opts "cpu" (some q) = .error e) := by
  constructor
  · intro hle
    simp [MaybeAddIsolator, hsup, isolatorFuncs, addCpuLimit,
      Quantity.Value, Quantity.MilliValue, not_lt.mpr hle]
  · intro hlt
    refine ⟨"cpu limit exceeds the maximum millivalue: " ++ toString q.value, ?_⟩
    simp [MaybeAddIsolator, hsup, isolatorFuncs, addCpuLimit,
      Quantity.Value, hlt]

/-- C1 witness: the amended theorem applied on a v1 kernel with all control
files present, once at 500 milli (emitting the 50% quota) and once just
above the maximum milli-value (failing). -/
theorem cpu_quota_amended_witness :
    (MaybeAddIsolator envV1All [] "cpu" (some ⟨500⟩) =
      .ok [NewUnitOption "Service" "CPUQuota" "50%"]) ∧
    (∃ e, MaybeAddIsolator envV1All []
      "cpu" (some ⟨9223372036854776 * 1000⟩) = .error e) := by
  have h1 := (cpu_quota_amended envV1All [] ⟨500⟩ rfl).1 (by decide)
  have h2 := (cpu_quota_amended envV1All [] ⟨9223372036854776 * 1000⟩ rfl).2
    (by decide)
  exact ⟨by simpa using h1, by simpa using h2⟩

/-- C1 counterexample: the claim as frozen states the emitted quota equals
`floor(milli/10)` as a percentage for every quantity below the maximum, but
at milli-value −15 (below the maximum) the code emits `-1%` while
`floor(-15/10) = -2`. -/
theorem cpu_quota_counterexample :
    IsIsolatorSupported envV1All "cpu" = .ok true ∧
    (-15 : Int) ≤ MaxMilliValue ∧
    MaybeAddIsolator envV1All [] "cpu" (some ⟨-15⟩) =
      .ok [NewUnitOption "Service" "CPUQuota" "-1%"] ∧
    toString (Int.fdiv (-15 : Int) 10) ++ "%" ≠ "-1%" := by
  refine ⟨rfl, by decide, rfl, by decide⟩

/-- C8: for every memory quantity, `MaybeAddIsolator` (via `addMemoryLimit`)
appends exactly one `MemoryLimit` option whose value is the quantity's exact
byte count, and `addMemoryLimit` never fails. -/
theorem memory_limit_exact (env : KernelEnv) (opts : List UnitOption)
    (q : Quantity) :
    (IsIsolatorSupported env "memory" = .ok true →
      MaybeAddIsolator env opts "memory" (some q) =
        .ok (opts ++ [NewUnitOption "Service" "MemoryLimit"
          (toString q.value)])) ∧
    addMemoryLimit opts q =
      .ok (opts ++ [NewUnitOption "Service" "MemoryLimit"
        (toString q.value)]) := by
  constructor
  · intro hsup
    simp [MaybeAddIsolator, hsup, isolatorFuncs, addMemoryLimit,
      Quantity.Value]
  · simp [addMemoryLimit, Quantity.Value]

/-- C8 witness: a 134217728-byte memory limit on a v1 kernel with the memory
control file present yields exactly that byte value as the option. -/
theorem memory_limit_exact_witness :
    MaybeAddIsolator envV1All [] "memory" (some ⟨134217728⟩) =
      .ok [NewUnitOption "Service" "MemoryLimit" "134217728"] := by
  have h := (memory_limit_exact envV1All [] ⟨134217728⟩).1 rfl
  simpa using h

/-- C3: whenever the kernel does not support the requested isolator (on v2
the controller is not in the enabled set, on v1 a required control file does
not exist — both and only these make `IsIsolatorSupported` answer a
successful `false`), `MaybeAddIsolator` with a non-nil limit returns the
option set unchanged and no error; the stderr diagnostic is an I/O effect
outside this model. -/
theorem unsupported_isolator_skipped (env : KernelEnv)
    (opts : List UnitOption) (isolator : String) (q : Quantity)
    (hunsup : IsIsolatorSupported env isolator = .ok false) :
    MaybeAddIsolator env opts isolator (some q) = .ok opts := by
  simp [MaybeAddIsolator, hunsup]

/-- C3 witness: requesting the memory isolator on a v1 kernel whose memory
control file is absent leaves a nonempty option set unchanged. -/
theorem unsupported_isolator_skipped_witness :
    MaybeAddIsolator envV1None [NewUnitOption "Unit" "Description" "x"]
      "memory" (some ⟨7⟩) =
      .ok [NewUnitOption "Unit" "Description" "x"] :=
  unsupported_isolator_skipped envV1None _ "memory" ⟨7⟩ rfl

/-- C10 (amended): for the isolator kinds of the translator, `cpu` and
`memory`, a true answer from `IsIsolatorSupported` implies the name is a key
of `isolatorFuncs`, and `MaybeAddIsolator` with a non-nil limit never
invokes a nil isolator function (never panics).  (For other names — e.g.
`devices` on v1, or any further enabled v2 controller — support may hold
with no table entry, see the counterexample.) -/
theorem isolator_table_total_amended (env : KernelEnv) (isolator : String)
    (opts : List UnitOption) (q : Quantity)
    (hkind : isolator = "cpu" ∨ isolator = "memory") :
    (IsIsolatorSupported env isolator = .ok true →
      (isolatorFuncs isolator).isSome) ∧
    MaybeAddIsolator env opts isolator (some q) ≠ .panics := by
  have hfun : (isolatorFuncs isolator).isSome := by
    rcases hkind with h | h <;> subst h <;> rfl
  refine ⟨fun _ => hfun, ?_⟩
  unfold MaybeAddIsolator
  rcases hI : IsIsolatorSupported env isolator with e | b
  · simp
  · rcases b with _ | _
    · simp
    · rcases hf : isolatorFuncs isolator with _ | f
      · rw [hf] at hfun; simp at hfun
      · simp only []
        rcases hr : f opts q with e | o <;> simp [hr]

/-- C10 witness: the amended theorem applied to both table keys on a v1
kernel with every control file present. -/
theorem isolator_table_total_amended_witness :
    ((isolatorFuncs "cpu").isSome ∧
      MaybeAddIsolator envV1All [] "cpu" (some ⟨500⟩) ≠ .panics) ∧
    ((isolatorFuncs "memory").isSome ∧
      MaybeAddIsolator envV1All [] "memory" (some ⟨500⟩) ≠ .panics) := by
  have hc := isolator_table_total_amended envV1All "cpu" [] ⟨500⟩ (Or.inl rfl)
  have hm := isolator_table_total_amended envV1All "memory" [] ⟨500⟩
    (Or.inr rfl)
  exact ⟨⟨hc.1 rfl, hc.2⟩, ⟨hm.1 rfl, hm.2⟩⟩

/-- C10 counterexample: on a v1 kernel exposing the devices control files,
`IsIsolatorSupported "devices"` answers true, yet `devices` is not a key of
`isolatorFuncs`, and `MaybeAddIsolator` with a non-nil limit reaches the nil
isolator function (a Go panic). -/
theorem isolator_table_counterexample :
    IsIsolatorSupported envV1All "devices" = .ok true ∧
    isolatorFuncs "devices" = none ∧
    MaybeAddIsolator envV1All [] "devices" (some ⟨1⟩) = .panics :=
  ⟨rfl, rfl, rfl⟩

/-!
### Claim theorems: the v1 Controller Enumerator
-/

/-- Claim-side description of one table line: the `(hierarchy, controller)`
pair retained exactly when the line's scanned enabled flag is 1. -/
def lineEnabledEntry (l : String) : Option (Int × String) :=
  match scanLine l with
  | (c, h, _, e) => if e = 1 then some (h, c) else none

/-- Claim-side description of the controllers recorded for one hierarchy id:
the controllers of the enabled lines carrying that id, in line order. -/
def enabledFor (lines : List String) (h : Int) : List String :=
  lines.filterMap fun l =>
    match lineEnabledEntry l with
    | some (h', c) => if h' = h then some c else none
    | none => none

theorem cgStep_eq (acc : CgMap) (l : String) :
    cgStep acc l =
      match lineEnabledEntry l with
      | some (h, c) => insertCg acc h c
      | none => acc := by
  unfold cgStep lineEnabledEntry
  rcases scanLine l with ⟨c, h, n, e⟩
  by_cases he : e = 1 <;> simp [he]

theorem lookupCg_insertCg (acc : CgMap) (h : Int) (c : String) (h' : Int) :
    lookupCg (insertCg acc h c) h' =
      if h' = h then some ((lookupCg acc h).getD [] ++ [c])
      else lookupCg acc h' := by
  induction acc with
  | nil =>
    by_cases hh : h' = h
    · simp [insertCg, lookupCg, hh]
    · have hh2 : ¬h = h' := fun hc => hh hc.symm
      simp [insertCg, lookupCg, hh, hh2]
  | cons p rest ih =>
    rcases p with ⟨k, cs⟩
    by_cases hk : k = h
    · subst hk
      by_cases hh : h' = k
      · simp [insertCg, lookupCg, hh]
      · have hh2 : ¬k = h' := fun hc => hh hc.symm
        simp [insertCg, lookupCg, hh, hh2]
    · by_cases hh : h' = k
      · have hkh : k = h' := hh.symm
        have hh'h : ¬h' = h := fun hc => hk (hh.symm.trans hc)
        simp [insertCg, lookupCg, hk, hkh, hh'h]
      · have hk'h : ¬k = h' := fun hc => hh hc.symm
        simp [insertCg, lookupCg, hk, hk'h, hh, ih]

theorem enabledFor_cons (l : String) (ls : List String) (h : Int) :
    enabledFor (l :: ls) h =
      (match lineEnabledEntry l with
        | some (h', c) => if h' = h then [c] else []
        | none => []) ++ enabledFor ls h := by
  unfold enabledFor
  rcases hE : lineEnabledEntry l with _ | ⟨h', c⟩
  · simp [List.filterMap_cons, hE]
  · by_cases hh : h' = h <;> simp [List.filterMap_cons, hE, hh]

theorem foldl_cgStep_lookup (lines : List String) :
    ∀ (acc : CgMap) (h : Int),
      lookupCg (lines.foldl cgStep acc) h =
        match lookupCg acc h with
        | some cs => some (cs ++ enabledFor lines h)
        | none =>
          if enabledFor lines h = [] then none
          else some (enabledFor lines h) := by
  induction lines with
  | nil =>
    intro acc h
    rcases hl : lookupCg acc h with _ | cs <;> simp [enabledFor, hl]
  | cons l ls ih =>
    intro acc h
    rcases hE : lineEnabledEntry l with _ | ⟨h₀, c⟩
    · simp only [List.foldl_cons, cgStep_eq, hE, enabledFor_cons,
        List.nil_append]
      exact ih acc h
    · by_cases hh : h₀ = h
      · subst hh
        simp only [List.foldl_cons, cgStep_eq, hE, enabledFor_cons,
          if_pos rfl]
        rw [ih (insertCg acc h₀ c) h₀, lookupCg_insertCg, if_pos rfl]
        rcases hl : lookupCg acc h₀ with _ | cs <;> simp [hl]
      · simp only [List.foldl_cons, cgStep_eq, hE, enabledFor_cons,
          if_neg hh, List.nil_append]
        rw [ih (insertCg acc h₀ c) h, lookupCg_insertCg,
          if_neg (fun hc => hh hc.symm)]

/-- C4: the v1 Controller Enumerator discards the first (header) line of the
controller table — the result does not depend on it; for every hierarchy id
its entry consists exactly of the controllers of the remaining lines whose
scan yields an enabled flag of 1 (lines whose scan fails cannot yield flag 1
and so contribute nothing, with no error); and failure to open the table is
returned as a fatal error. -/
theorem v1_enumerator_characterisation :
    (∀ (h1 h2 : String) (rest : List String),
      parseV1Cgroups (h1 :: rest) = parseV1Cgroups (h2 :: rest)) ∧
    (∀ (header : String) (lines : List String) (h : Int),
      lookupCg (parseV1Cgroups (header :: lines)) h =
        if enabledFor lines h = [] then none
        else some (enabledFor lines h)) ∧
    (∀ e : String, GetEnabledV1Cgroups (.error e) = .error e) := by
  refine ⟨fun h1 h2 rest => rfl, fun header lines h => ?_, fun e => rfl⟩
  have := foldl_cgStep_lookup lines [] h
  simpa [parseV1Cgroups, lookupCg] using this

theorem insertCg_entries_nonempty (acc : CgMap) (h : Int) (c : String)
    (hacc : ∀ p ∈ acc, p.2 ≠ []) :
    ∀ p ∈ insertCg acc h c, p.2 ≠ [] := by
  induction acc with
  | nil => simp [insertCg]
  | cons q rest ih =>
    rcases q with ⟨k, cs⟩
    by_cases hk : k = h
    · subst hk
      intro p hp
      rcases (by simpa [insertCg] using hp) with hp | hp
      · subst hp; simp
      · exact hacc p (List.mem_cons_of_mem _ hp)
    · intro p hp
      rcases (by simpa [insertCg, hk] using hp) with hp | hp
      · subst hp
        exact hacc (k, cs) (List.mem_cons_self _ _)
      · exact ih (fun r hr => hacc r (List.mem_cons_of_mem _ hr)) p hp

theorem foldl_cgStep_entries_nonempty (lines : List String) :
    ∀ (acc : CgMap), (∀ p ∈ acc, p.2 ≠ []) →
      ∀ p ∈ lines.foldl cgStep acc, p.2 ≠ [] := by
  induction lines with
  | nil => intro acc hacc; simpa using hacc
  | cons l ls ih =>
    intro acc hacc
    rw [List.foldl_cons]
    refine ih (cgStep acc l) ?_
    unfold cgStep
    rcases scanLine l with ⟨c, h, n, e⟩
    by_cases he : e = 1
    · simpa [he] using insertCg_entries_nonempty acc h c hacc
    · simpa [he] using hacc

/-- C5: every hierarchy entry of the map built by the v1 Controller
Enumerator holds a non-empty controller list.  (The map's immutability after
construction is inherent in this embedding: every operation of the subsystem
— `GetV1ControllerDirs`, `getV1ControllerSymlinks`, the builder and the
carver — is a pure function taking the map as an argument, mirroring the
source, which only ever reads it.) -/
theorem v1_map_entries_nonempty (lines : List String) (h : Int)
    (cs : List String) (hmem : (h, cs) ∈ parseV1Cgroups lines) :
    cs ≠ [] := by
  rcases lines with _ | ⟨header, rest⟩
  · simp [parseV1Cgroups] at hmem
  · exact foldl_cgStep_entries_nonempty rest [] (by simp) (h, cs)
      (by simpa [parseV1Cgroups] using hmem)

/-- C5 witness: the entry built from the single enabled line `cpu 1 1 1` is
non-empty. -/
theorem v1_map_entries_nonempty_witness :
    (1, ["cpu"]) ∈ parseV1Cgroups ["#subsys_name", "cpu 1 1 1"] ∧
    (["cpu"] : List String) ≠ [] :=
  ⟨by decide, v1_map_entries_nonempty ["#subsys_name", "cpu 1 1 1"] 1 ["cpu"]
    (by decide)⟩

/-!
### Claim theorems: controller directory names and co-mount symlinks
-/

theorem lookupSym_insertSym (acc : List (String × String)) (k v : String)
    (c : String) :
    lookupSym (insertSym acc k v) c =
      if c = k then some v else lookupSym acc c := by
  induction acc with
  | nil =>
    by_cases hc : c = k
    · simp [insertSym, lookupSym, hc]
    · have hc2 : ¬k = c := fun h => hc h.symm
      simp [insertSym, lookupSym, hc, hc2]
  | cons p rest ih =>
    rcases p with ⟨k', v'⟩
    by_cases hk : k' = k
    · subst hk
      by_cases hc : c = k'
      · simp [insertSym, lookupSym, hc]
      · have hc2 : ¬k' = c := fun h => hc h.symm
        simp [insertSym, lookupSym, hc, hc2]
    · by_cases hc : c = k'
      · have hck : ¬c = k := fun h => hk (hc.symm.trans h)
        simp [insertSym, lookupSym, hk, hc.symm, hck]
      · have hc2 : ¬k' = c := fun h => hc h.symm
        simp [insertSym, lookupSym, hk, hc2, hc, ih]

theorem lookupSym_foldIns (cs : List String) (tgt : String) :
    ∀ (acc : List (String × String)) (c : String),
      lookupSym (cs.foldl (fun a ln => insertSym a ln tgt) acc) c =
        if c ∈ cs then some tgt else lookupSym acc c := by
  induction cs with
  | nil => intro acc c; simp
  | cons l rest ih =>
    intro acc c
    rw [List.foldl_cons, ih (insertSym acc l tgt) c, lookupSym_insertSym]
    by_cases hr : c ∈ rest
    · simp [hr]
    · by_cases hl : c = l
      · simp [hr, hl]
      · simp [hr, hl]

theorem mem_allControllers (m : CgMap) (h : Int) (cs : List String)
    (c : String) (hmem : (h, cs) ∈ m) (hc : c ∈ cs) :
    c ∈ allControllers m := by
  induction m with
  | nil => simp at hmem
  | cons p rest ih =>
    rcases List.mem_cons.mp hmem with hp | hp
    · subst hp
      exact List.mem_append_left _ hc
    · exact List.mem_append_right _ (ih hp)

theorem mem_all_of_mem_multi (m : CgMap) (c : String)
    (hc : c ∈ multiControllers m) : c ∈ allControllers m := by
  induction m with
  | nil => simp [multiControllers] at hc
  | cons p rest ih =>
    rcases List.mem_append.mp hc with hp | hp
    · split at hp
      · exact List.mem_append_left _ hp
      · simp at hp
    · exact List.mem_append_right _ (ih hp)

theorem symStep_eq (acc : List (String × String)) (p : Int × List String) :
    symStep acc p =
      if 1 < p.2.length then
        p.2.foldl (fun a ln => insertSym a ln (joinComma p.2)) acc
      else acc := rfl

theorem symFold_lookup_notmem (m : CgMap) :
    ∀ (acc : List (String × String)) (c : String),
      c ∉ multiControllers m →
      lookupSym (m.foldl symStep acc) c = lookupSym acc c := by
  induction m with
  | nil => intro acc c _; rfl
  | cons p rest ih =>
    intro acc c hc
    rw [List.foldl_cons, symStep_eq]
    by_cases hlen : 1 < p.2.length
    · have hcp : c ∉ p.2 := fun hin =>
        hc (List.mem_append_left _ (by simpa [multiControllers, hlen] using hin))
      have hcr : c ∉ multiControllers rest := fun hin =>
        hc (by simp [multiControllers, hlen, hin])
      rw [if_pos hlen, ih _ c hcr, lookupSym_foldIns, if_neg hcp]
    · have hcr : c ∉ multiControllers rest := fun hin =>
        hc (by simp [multiControllers, hlen, hin])
      rw [if_neg hlen, ih _ c hcr]

theorem symFold_lookup_mem (m : CgMap) :
    ∀ (acc : List (String × String)) (h : Int) (cs : List String) (c : String),
      (allControllers m).Nodup → (h, cs) ∈ m → 1 < cs.length → c ∈ cs →
      lookupSym (m.foldl symStep acc) c = some (joinComma cs) := by
  induction m with
  | nil => intro acc h cs c _ hmem; simp at hmem
  | cons p rest ih =>
    intro acc h cs c hnd hmem hlen hc
    have hnd' := hnd
    rw [show allControllers (p :: rest) = p.2 ++ allControllers rest from rfl,
      List.nodup_append] at hnd'
    rcases List.mem_cons.mp hmem with hp | hp
    · subst hp
      rw [List.foldl_cons, symStep_eq, if_pos hlen]
      have hcr : c ∉ multiControllers rest := fun hin =>
        hnd'.2.2 hc (mem_all_of_mem_multi rest c hin)
      rw [symFold_lookup_notmem rest _ c hcr, lookupSym_foldIns, if_pos hc]
    · rw [List.foldl_cons]
      exact ih _ h cs c hnd'.2.1 hp hlen hc

theorem not_mem_multi_of_singleton (m : CgMap) (h : Int) (cs : List String)
    (c : String) (hnd : (allControllers m).Nodup) (hmem : (h, cs) ∈ m)
    (hlen : cs.length = 1) (hc : c ∈ cs) : c ∉ multiControllers m := by
  induction m with
  | nil => simp at hmem
  | cons p rest ih =>
    have hnd' := hnd
    rw [show allControllers (p :: rest) = p.2 ++ allControllers rest from rfl,
      List.nodup_append] at hnd'
    intro hin
    rcases List.mem_cons.mp hmem with hp | hp
    · subst hp
      have : ¬(1 : Nat) < cs.length := by omega
      rcases List.mem_append.mp hin with hl | hl
      · rw [if_neg this] at hl; simp at hl
      · exact hnd'.2.2 hc (mem_all_of_mem_multi rest c hl)
    · have hcr : c ∈ allControllers rest := mem_allControllers rest h cs c hp hc
      rcases List.mem_append.mp hin with hl | hl
      · split at hl
        · exact hnd'.2.2 hl hcr
        · simp at hl
      · exact ih hnd'.2.1 hp hl

/-- C2: for a Controller Hierarchy Map whose controller names are pairwise
distinct (as in any kernel controller table, where a controller belongs to
exactly one hierarchy), every hierarchy's on-disk directory name — the
comma-join of its controllers in discovery order — is among the directory
names; every controller of a hierarchy with more than one controller is
symlinked to that joint directory name; and a controller of a
single-controller hierarchy gets no symlink. -/
theorem v1_dirs_and_symlinks (m : CgMap) (hnd : (allControllers m).Nodup)
    (h : Int) (cs : List String) (hmem : (h, cs) ∈ m) :
    joinComma cs ∈ GetV1ControllerDirs m ∧
    (1 < cs.length → ∀ c ∈ cs,
      lookupSym (getV1ControllerSymlinks m) c = some (joinComma cs)) ∧
    (cs.length = 1 → ∀ c ∈ cs,
      lookupSym (getV1ControllerSymlinks m) c = none) := by
  refine ⟨List.mem_map.mpr ⟨(h, cs), hmem, rfl⟩, ?_, ?_⟩
  · intro hlen c hc
    exact symFold_lookup_mem m [] h cs c hnd hmem hlen hc
  · intro hlen c hc
    have hni := not_mem_multi_of_singleton m h cs c hnd hmem hlen hc
    rw [show getV1ControllerSymlinks m = m.foldl symStep [] from rfl,
      symFold_lookup_notmem m [] c hni]
    rfl

/-- C2 witness: in the map {1 ↦ [cpu, cpuacct], 2 ↦ [memory]} the joint
hierarchy's directory is `cpu,cpuacct` with both members symlinked to it,
and the singleton hierarchy `memory` gets a directory and no symlink. -/
theorem v1_dirs_and_symlinks_witness :
    ("cpu,cpuacct" ∈
      GetV1ControllerDirs [(1, ["cpu", "cpuacct"]), (2, ["memory"])]) ∧
    lookupSym (getV1ControllerSymlinks
      [(1, ["cpu", "cpuacct"]), (2, ["memory"])]) "cpu" =
      some "cpu,cpuacct" ∧
    lookupSym (getV1ControllerSymlinks
      [(1, ["cpu", "cpuacct"]), (2, ["memory"])]) "cpuacct" =
      some "cpu,cpuacct" ∧
    lookupSym (getV1ControllerSymlinks
      [(1, ["cpu", "cpuacct"]), (2, ["memory"])]) "memory" = none := by
  have h1 := v1_dirs_and_symlinks [(1, ["cpu", "cpuacct"]), (2, ["memory"])]
    (by decide) 1 ["cpu", "cpuacct"] (by decide)
  have h2 := v1_dirs_and_symlinks [(1, ["cpu", "cpuacct"]), (2, ["memory"])]
    (by decide) 2 ["memory"] (by decide)
  refine ⟨by simpa [joinComma] using h1.1, ?_, ?_, ?_⟩
  · simpa [joinComma] using h1.2.1 (by decide) "cpu" (by decide)
  · simpa [joinComma] using h1.2.1 (by decide) "cpuacct" (by decide)
  · simpa using h2.2.2 (by decide) "memory" (by decide)

/-!
### Claim theorems: v1 cgroup-path resolution
-/

theorem parseV1CgroupController_found (controller : String) :
    ∀ (lines : List String),
      (∀ l ∈ lines, ¬(splitN3Colon l).length < 3) →
      ∀ l₀, lines.find? (fun l => lineHasController l controller) = some l₀ →
        parseV1CgroupController lines controller = .ok (splitN3Colon l₀) := by
  intro lines
  induction lines with
  | nil => intro _ l₀ hfind; simp at hfind
  | cons l rest ih =>
    intro hwf l₀ hfind
    have hwfl := hwf l (List.mem_cons_self _ _)
    by_cases hl : lineHasController l controller = true
    · rw [List.find?_cons, hl] at hfind
      injection hfind with hfind
      subst hfind
      unfold parseV1CgroupController
      rw [if_neg hwfl, if_pos (by simpa [lineHasController] using hl)]
    · rw [List.find?_cons, Bool.eq_false_iff.mpr hl] at hfind
      unfold parseV1CgroupController
      rw [if_neg hwfl, if_neg (by simpa [lineHasController] using hl)]
      exact ih (fun x hx => hwf x (List.mem_cons_of_mem _ hx)) l₀ hfind

theorem parseV1CgroupController_notfound (controller : String) :
    ∀ (lines : List String),
      (∀ l ∈ lines, lineHasController l controller = false) →
      ∃ e, parseV1CgroupController lines controller = .error e := by
  intro lines
  induction lines with
  | nil => exact fun _ => ⟨_, rfl⟩
  | cons l rest ih =>
    intro hno
    unfold parseV1CgroupController
    by_cases hwfl : (splitN3Colon l).length < 3
    · exact ⟨_, by rw [if_pos hwfl]⟩
    · rw [if_neg hwfl, if_neg (by
        simpa [lineHasController] using hno l (List.mem_cons_self _ _))]
      exact ih fun x hx => hno x (List.mem_cons_of_mem _ hx)

/-- C7 (amended): over a membership file every line of which splits into at
least three colon-separated fields, v1 cgroup-path resolution returns the
trailing path segment (the third field) of the first line whose comma-joined
controller list contains the requested controller; when no line's controller
list contains it the resolution fails (this second part holds for arbitrary
content).  A line with fewer than three fields reached before any match
makes the resolution fail even if a later line matches, see the
counterexample. -/
theorem v1_path_resolution_amended (lines : List String)
    (controller : String) :
    ((∀ l ∈ lines, ¬(splitN3Colon l).length < 3) →
      ∀ l₀, lines.find? (fun l => lineHasController l controller) = some l₀ →
        parseV1CgroupController lines controller = .ok (splitN3Colon l₀) ∧
        GetOwnV1CgroupPath lines controller =
          .ok ((splitN3Colon l₀).getD 2 "")) ∧
    ((∀ l ∈ lines, lineHasController l controller = false) →
      ∃ e, parseV1CgroupController lines controller = .error e) := by
  constructor
  · intro hwf l₀ hfind
    have h := parseV1CgroupController_found controller lines hwf l₀ hfind
    exact ⟨h, by simp [GetOwnV1CgroupPath, h]⟩
  · exact parseV1CgroupController_notfound controller lines

/-- C7 witness: the amended theorem applied to a two-line well-formed file,
resolving `memory` to `/foo`, and to the controller `blkio`, contained in no
line, which fails. -/
theorem v1_path_resolution_amended_witness :
    (parseV1CgroupController ["10:cpu,cpuacct:/x", "2:memory:/foo"] "memory" =
      .ok ["2", "memory", "/foo"] ∧
     GetOwnV1CgroupPath ["10:cpu,cpuacct:/x", "2:memory:/foo"] "memory" =
      .ok "/foo") ∧
    (∃ e, parseV1CgroupController ["10:cpu,cpuacct:/x", "2:memory:/foo"]
      "blkio" = .error e) := by
  constructor
  · have h := (v1_path_resolution_amended
      ["10:cpu,cpuacct:/x", "2:memory:/foo"] "memory").1 (by decide)
      "2:memory:/foo" (by decide)
    exact ⟨by simpa using h.1, by simpa using h.2⟩
  · exact (v1_path_resolution_amended
      ["10:cpu,cpuacct:/x", "2:memory:/foo"] "blkio").2 (by decide)

/-- C7 counterexample: the claim as frozen promises the trailing segment of
a line containing the controller for every membership-file content, but a
malformed line appearing before the matching line makes the code return a
parse error instead: here the second line's controller list contains `cpu`,
yet resolution fails. -/
theorem v1_path_resolution_counterexample :
    lineHasController "2:cpu:/foo" "cpu" = true ∧
    "2:cpu:/foo" ∈ ["garbage", "2:cpu:/foo"] ∧
    GetOwnV1CgroupPath ["garbage", "2:cpu:/foo"] "cpu" =
      .error "error parsing /proc/self/cgroup" := by
  refine ⟨by decide, by decide, by decide⟩

/-!
### Claim theorems: the Hierarchy Builder's mount-error behaviour
-/

theorem mountControllers_cons_mkfail (env : FsEnv) (root c : String)
    (rest : List String) (e1 : String)
    (hmk : env.mkdirAll (root ++ "/sys/fs/cgroup" ++ "/" ++ c) = some e1) :
    mountControllers env root (c :: rest) =
      ([FsOp.mkdir (root ++ "/sys/fs/cgroup" ++ "/" ++ c) (some e1)],
        some e1) := by
  simp only [mountControllers, hmk]

theorem mountControllers_cons_mountfail (env : FsEnv) (root c : String)
    (rest : List String) (e2 : String)
    (hmk : env.mkdirAll (root ++ "/sys/fs/cgroup" ++ "/" ++ c) = none)
    (hmr : mountResErr (env.mount "nosuid,noexec,nodev" "cgroup"
      (root ++ "/sys/fs/cgroup" ++ "/" ++ c) "cgroup" c) = some e2) :
    mountControllers env root (c :: rest) =
      ([FsOp.mkdir (root ++ "/sys/fs/cgroup" ++ "/" ++ c) none,
        FsOp.mount "nosuid,noexec,nodev" "cgroup"
          (root ++ "/sys/fs/cgroup" ++ "/" ++ c) "cgroup" c
          (env.mount "nosuid,noexec,nodev" "cgroup"
            (root ++ "/sys/fs/cgroup" ++ "/" ++ c) "cgroup" c)],
        some (errMounting (root ++ "/sys/fs/cgroup" ++ "/" ++ c) e2)) := by
  simp only [mountControllers, hmk, hmr]

theorem mountControllers_cons_ok (env : FsEnv) (root c : String)
    (rest : List String)
    (hmk : env.mkdirAll (root ++ "/sys/fs/cgroup" ++ "/" ++ c) = none)
    (hmr : mountResErr (env.mount "nosuid,noexec,nodev" "cgroup"
      (root ++ "/sys/fs/cgroup" ++ "/" ++ c) "cgroup" c) = none) :
    mountControllers env root (c :: rest) =
      (FsOp.mkdir (root ++ "/sys/fs/cgroup" ++ "/" ++ c) none ::
        FsOp.mount "nosuid,noexec,nodev" "cgroup"
          (root ++ "/sys/fs/cgroup" ++ "/" ++ c) "cgroup" c
          (env.mount "nosuid,noexec,nodev" "cgroup"
            (root ++ "/sys/fs/cgroup" ++ "/" ++ c) "cgroup" c) ::
          (mountControllers env root rest).1,
        (mountControllers env root rest).2) := by
  simp only [mountControllers, hmk, hmr]

theorem mountControllers_ops (env : FsEnv) (root : String) :
    ∀ (cs : List String), ∀ op ∈ (mountControllers env root cs).1,
      (∃ p r, op = FsOp.mkdir p r) ∨
      (∃ fl s t ft d r, op = FsOp.mount fl s t ft d r) := by
  intro cs
  induction cs with
  | nil => intro op hop; simp [mountControllers] at hop
  | cons c rest ih =>
    intro op hop
    rcases hmk : env.mkdirAll (root ++ "/sys/fs/cgroup" ++ "/" ++ c)
      with _ | e1
    · rcases hmr : mountResErr
          (env.mount "nosuid,noexec,nodev" "cgroup"
            (root ++ "/sys/fs/cgroup" ++ "/" ++ c) "cgroup" c) with _ | e2
      · rw [mountControllers_cons_ok env root c rest hmk hmr] at hop
        simp only [List.mem_cons] at hop
        rcases hop with h | h | h
        · exact Or.inl ⟨_, _, h⟩
        · exact Or.inr ⟨_, _, _, _, _, _, h⟩
        · exact ih op h
      · rw [mountControllers_cons_mountfail env root c rest e2 hmk hmr] at hop
        simp only [List.mem_cons, List.mem_singleton,
          List.not_mem_nil, or_false] at hop
        rcases hop with h | h
        · exact Or.inl ⟨_, _, h⟩
        · exact Or.inr ⟨_, _, _, _, _, _, h⟩
    · rw [mountControllers_cons_mkfail env root c rest e1 hmk] at hop
      simp only [List.mem_singleton] at hop
      exact Or.inl ⟨_, _, hop⟩

theorem mountControllers_mem_fail (env : FsEnv) (root : String) :
    ∀ (cs : List String) (fl s t ft d : String) (r : MountResult) (e : String),
      FsOp.mount fl s t ft d r ∈ (mountControllers env root cs).1 →
      mountResErr r = some e →
      (mountControllers env root cs).2 = some (errMounting t e) ∧
      ∃ pre, (mountControllers env root cs).1 =
        pre ++ [FsOp.mount fl s t ft d r] := by
  intro cs
  induction cs with
  | nil => intro _ _ _ _ _ _ _ hmem; simp [mountControllers] at hmem
  | cons c rest ih =>
    intro fl s t ft d r e hmem hfail
    rcases hmk : env.mkdirAll (root ++ "/sys/fs/cgroup" ++ "/" ++ c)
      with _ | e1
    · rcases hmr : mountResErr
          (env.mount "nosuid,noexec,nodev" "cgroup"
            (root ++ "/sys/fs/cgroup" ++ "/" ++ c) "cgroup" c) with _ | e2
      · rw [mountControllers_cons_ok env root c rest hmk hmr] at hmem ⊢
        simp only [List.mem_cons] at hmem
        rcases hmem with h | h | h
        · simp at h
        · cases h
          rw [hmr] at hfail
          simp at hfail
        · obtain ⟨h1, pre, hpre⟩ := ih fl s t ft d r e h hfail
          refine ⟨h1, ⟨FsOp.mkdir (root ++ "/sys/fs/cgroup" ++ "/" ++ c) none ::
            FsOp.mount "nosuid,noexec,nodev" "cgroup"
              (root ++ "/sys/fs/cgroup" ++ "/" ++ c) "cgroup" c
              (env.mount "nosuid,noexec,nodev" "cgroup"
                (root ++ "/sys/fs/cgroup" ++ "/" ++ c) "cgroup" c) :: pre,
            ?_⟩⟩
          simp [hpre]
      · rw [mountControllers_cons_mountfail env root c rest e2 hmk hmr]
          at hmem ⊢
        simp only [List.mem_cons, List.mem_singleton,
          List.not_mem_nil, or_false] at hmem
        rcases hmem with h | h
        · simp at h
        · cases h
          rw [hmr] at hfail
          injection hfail with he
          subst he
          exact ⟨rfl, ⟨[FsOp.mkdir (root ++ "/sys/fs/cgroup" ++ "/" ++ c)
            none], by simp⟩⟩
    · rw [mountControllers_cons_mkfail env root c rest e1 hmk] at hmem
      simp only [List.mem_singleton] at hmem
      simp at hmem

theorem makeSymlinks_cons_fail (env : FsEnv) (base ln tgt : String)
    (rest : List (String × String)) (e : String)
    (hs : env.symlinkRes tgt (base ++ "/" ++ ln) = some e) :
    makeSymlinks env base ((ln, tgt) :: rest) =
      ([FsOp.symlink tgt (base ++ "/" ++ ln) (some e)], some (errSymlink e)) := by
  simp only [makeSymlinks, hs]

theorem makeSymlinks_cons_ok (env : FsEnv) (base ln tgt : String)
    (rest : List (String × String))
    (hs : env.symlinkRes tgt (base ++ "/" ++ ln) = none) :
    makeSymlinks env base ((ln, tgt) :: rest) =
      (FsOp.symlink tgt (base ++ "/" ++ ln) none ::
        (makeSymlinks env base rest).1,
        (makeSymlinks env base rest).2) := by
  simp only [makeSymlinks, hs]

theorem mountFsRO_fail (env : FsEnv) (p e : String)
    (h : mountResErr (env.mount roRemountFlags p p "" "") = some e) :
    mountFsRO env p =
      ([FsOp.mount roRemountFlags p p "" "" (env.mount roRemountFlags p p "" "")],
        some (errRemountRO p e)) := by
  simp only [mountFsRO, h]

theorem mountFsRO_ok (env : FsEnv) (p : String)
    (h : mountResErr (env.mount roRemountFlags p p "" "") = none) :
    mountFsRO env p =
      ([FsOp.mount roRemountFlags p p "" "" (env.mount roRemountFlags p p "" "")],
        none) := by
  simp only [mountFsRO, h]

theorem makeSymlinks_ops (env : FsEnv) (base : String) :
    ∀ (links : List (String × String)), ∀ op ∈ (makeSymlinks env base links).1,
      ∃ t l r, op = FsOp.symlink t l r := by
  intro links
  induction links with
  | nil => intro op hop; simp [makeSymlinks] at hop
  | cons p rest ih =>
    intro op hop
    rcases p with ⟨ln, tgt⟩
    rcases hs : env.symlinkRes tgt (base ++ "/" ++ ln) with _ | e
    · rw [makeSymlinks_cons_ok env base ln tgt rest hs] at hop
      simp only [List.mem_cons] at hop
      rcases hop with h | h
      · exact ⟨_, _, _, h⟩
      · exact ih op h
    · rw [makeSymlinks_cons_fail env base ln tgt rest e hs] at hop
      simp only [List.mem_singleton] at hop
      exact ⟨_, _, _, hop⟩

theorem createAfterSysfs_mkfail (env : FsEnv) (root : String) (m : CgMap)
    (ctx e : String)
    (hmk : env.mkdirAll (root ++ "/sys/fs/cgroup") = some e) :
    createAfterSysfs env root m ctx =
      ([FsOp.mkdir (root ++ "/sys/fs/cgroup") (some e)], some e) := by
  simp only [createAfterSysfs, hmk]

theorem createAfterSysfs_tmpfsfail (env : FsEnv) (root : String) (m : CgMap)
    (ctx e : String)
    (hmk : env.mkdirAll (root ++ "/sys/fs/cgroup") = none)
    (hrt : mountResErr (env.mount "nosuid,noexec,nodev,strictatime" "tmpfs"
      (root ++ "/sys/fs/cgroup") "tmpfs" (tmpfsOptions ctx)) = some e) :
    createAfterSysfs env root m ctx =
      ([FsOp.mkdir (root ++ "/sys/fs/cgroup") none,
        FsOp.mount "nosuid,noexec,nodev,strictatime" "tmpfs"
          (root ++ "/sys/fs/cgroup") "tmpfs" (tmpfsOptions ctx)
          (env.mount "nosuid,noexec,nodev,strictatime" "tmpfs"
            (root ++ "/sys/fs/cgroup") "tmpfs" (tmpfsOptions ctx))],
        some (errMounting (root ++ "/sys/fs/cgroup") e)) := by
  simp only [createAfterSysfs, hmk, hrt]

theorem createAfterSysfs_loopfail (env : FsEnv) (root : String) (m : CgMap)
    (ctx : String) (trC : List FsOp) (e : String)
    (hmk : env.mkdirAll (root ++ "/sys/fs/cgroup") = none)
    (hrt : mountResErr (env.mount "nosuid,noexec,nodev,strictatime" "tmpfs"
      (root ++ "/sys/fs/cgroup") "tmpfs" (tmpfsOptions ctx)) = none)
    (hC : mountControllers env root (GetV1ControllerDirs m) = (trC, some e)) :
    createAfterSysfs env root m ctx =
      ([FsOp.mkdir (root ++ "/sys/fs/cgroup") none,
        FsOp.mount "nosuid,noexec,nodev,strictatime" "tmpfs"
          (root ++ "/sys/fs/cgroup") "tmpfs" (tmpfsOptions ctx)
          (env.mount "nosuid,noexec,nodev,strictatime" "tmpfs"
            (root ++ "/sys/fs/cgroup") "tmpfs" (tmpfsOptions ctx))] ++ trC,
        some e) := by
  simp only [createAfterSysfs, hmk, hrt, hC]

theorem createAfterSysfs_symfail (env : FsEnv) (root : String) (m : CgMap)
    (ctx : String) (trC trS : List FsOp) (e : String)
    (hmk : env.mkdirAll (root ++ "/sys/fs/cgroup") = none)
    (hrt : mountResErr (env.mount "nosuid,noexec,nodev,strictatime" "tmpfs"
      (root ++ "/sys/fs/cgroup") "tmpfs" (tmpfsOptions ctx)) = none)
    (hC : mountControllers env root (GetV1ControllerDirs m) = (trC, none))
    (hS : makeSymlinks env (root ++ "/sys/fs/cgroup")
      (getV1ControllerSymlinks m) = (trS, some e)) :
    createAfterSysfs env root m ctx =
      ([FsOp.mkdir (root ++ "/sys/fs/cgroup") none,
        FsOp.mount "nosuid,noexec,nodev,strictatime" "tmpfs"
          (root ++ "/sys/fs/cgroup") "tmpfs" (tmpfsOptions ctx)
          (env.mount "nosuid,noexec,nodev,strictatime" "tmpfs"
            (root ++ "/sys/fs/cgroup") "tmpfs" (tmpfsOptions ctx))] ++
        trC ++ trS, some e) := by
  simp only [createAfterSysfs, hmk, hrt, hC, hS]

theorem createAfterSysfs_sysdfail (env : FsEnv) (root : String) (m : CgMap)
    (ctx : String) (trC trS : List FsOp) (e : String)
    (hmk : env.mkdirAll (root ++ "/sys/fs/cgroup") = none)
    (hrt : mountResErr (env.mount "nosuid,noexec,nodev,strictatime" "tmpfs"
      (root ++ "/sys/fs/cgroup") "tmpfs" (tmpfsOptions ctx)) = none)
    (hC : mountControllers env root (GetV1ControllerDirs m) = (trC, none))
    (hS : makeSymlinks env (root ++ "/sys/fs/cgroup")
      (getV1ControllerSymlinks m) = (trS, none))
    (hmk3 : env.mkdirAll (root ++ "/sys/fs/cgroup/systemd") = some e) :
    createAfterSysfs env root m ctx =
      ([FsOp.mkdir (root ++ "/sys/fs/cgroup") none,
        FsOp.mount "nosuid,noexec,nodev,strictatime" "tmpfs"
          (root ++ "/sys/fs/cgroup") "tmpfs" (tmpfsOptions ctx)
          (env.mount "nosuid,noexec,nodev,strictatime" "tmpfs"
            (root ++ "/sys/fs/cgroup") "tmpfs" (tmpfsOptions ctx))] ++
        trC ++ trS ++ [FsOp.mkdir (root ++ "/sys/fs/cgroup/systemd") (some e)],
        some e) := by
  simp only [createAfterSysfs, hmk, hrt, hC, hS, hmk3]

theorem createAfterSysfs_final (env : FsEnv) (root : String) (m : CgMap)
    (ctx : String) (trC trS : List FsOp)
    (hmk : env.mkdirAll (root ++ "/sys/fs/cgroup") = none)
    (hrt : mountResErr (env.mount "nosuid,noexec,nodev,strictatime" "tmpfs"
      (root ++ "/sys/fs/cgroup") "tmpfs" (tmpfsOptions ctx)) = none)
    (hC : mountControllers env root (GetV1ControllerDirs m) = (trC, none))
    (hS : makeSymlinks env (root ++ "/sys/fs/cgroup")
      (getV1ControllerSymlinks m) = (trS, none))
    (hmk3 : env.mkdirAll (root ++ "/sys/fs/cgroup/systemd") = none) :
    createAfterSysfs env root m ctx =
      ([FsOp.mkdir (root ++ "/sys/fs/cgroup") none,
        FsOp.mount "nosuid,noexec,nodev,strictatime" "tmpfs"
          (root ++ "/sys/fs/cgroup") "tmpfs" (tmpfsOptions ctx)
          (env.mount "nosuid,noexec,nodev,strictatime" "tmpfs"
            (root ++ "/sys/fs/cgroup") "tmpfs" (tmpfsOptions ctx))] ++
        trC ++ trS ++ [FsOp.mkdir (root ++ "/sys/fs/cgroup/systemd") none] ++
        (mountFsRO env (root ++ "/sys/fs/cgroup")).1,
        (mountFsRO env (root ++ "/sys/fs/cgroup")).2) := by
  simp only [createAfterSysfs, hmk, hrt, hC, hS, hmk3]

theorem not_unmount_mountControllers (env : FsEnv) (root : String)
    (cs : List String) (p : String) :
    FsOp.unmount p ∉ (mountControllers env root cs).1 := by
  intro h
  rcases mountControllers_ops env root cs _ h with ⟨q, r, hq⟩ |
    ⟨fl, s, t, ft, d, r, hq⟩ <;> simp at hq

theorem not_unmount_makeSymlinks (env : FsEnv) (base : String)
    (links : List (String × String)) (p : String) :
    FsOp.unmount p ∉ (makeSymlinks env base links).1 := by
  intro h
  obtain ⟨t, l, r, hq⟩ := makeSymlinks_ops env base links _ h
  simp at hq

theorem not_mount_makeSymlinks (env : FsEnv) (base : String)
    (links : List (String × String)) (fl s t ft d : String)
    (r : MountResult) :
    FsOp.mount fl s t ft d r ∉ (makeSymlinks env base links).1 := by
  intro h
  obtain ⟨t', l', r', hq⟩ := makeSymlinks_ops env base links _ h
  simp at hq

theorem mountFsRO_fst (env : FsEnv) (p : String) :
    (mountFsRO env p).1 =
      [FsOp.mount roRemountFlags p p "" ""
        (env.mount roRemountFlags p p "" "")] := rfl

theorem createAfterSysfs_no_unmount (env : FsEnv) (root : String) (m : CgMap)
    (ctx : String) (p : String) :
    FsOp.unmount p ∉ (createAfterSysfs env root m ctx).1 := by
  rcases hmk : env.mkdirAll (root ++ "/sys/fs/cgroup") with _ | e1
  · rcases hrt : mountResErr (env.mount "nosuid,noexec,nodev,strictatime"
        "tmpfs" (root ++ "/sys/fs/cgroup") "tmpfs" (tmpfsOptions ctx))
      with _ | e2
    · rcases hC : mountControllers env root (GetV1ControllerDirs m)
        with ⟨trC, resC⟩
      have hC' := not_unmount_mountControllers env root
        (GetV1ControllerDirs m) p
      rw [hC] at hC'
      rcases resC with _ | e3
      · rcases hS : makeSymlinks env (root ++ "/sys/fs/cgroup")
          (getV1ControllerSymlinks m) with ⟨trS, resS⟩
        have hS' := not_unmount_makeSymlinks env (root ++ "/sys/fs/cgroup")
          (getV1ControllerSymlinks m) p
        rw [hS] at hS'
        rcases resS with _ | e4
        · rcases hmk3 : env.mkdirAll (root ++ "/sys/fs/cgroup/systemd")
            with _ | e5
          · rw [createAfterSysfs_final env root m ctx trC trS
              hmk hrt hC hS hmk3]
            intro hmem
            rw [mountFsRO_fst] at hmem
            simp at hmem
            rcases hmem with h | h
            · exact hC' h
            · exact hS' h
          · rw [createAfterSysfs_sysdfail env root m ctx trC trS e5
              hmk hrt hC hS hmk3]
            intro hmem
            simp at hmem
            rcases hmem with h | h
            · exact hC' h
            · exact hS' h
        · rw [createAfterSysfs_symfail env root m ctx trC trS e4
            hmk hrt hC hS]
          intro hmem
          simp at hmem
          rcases hmem with h | h
          · exact hC' h
          · exact hS' h
      · rw [createAfterSysfs_loopfail env root m ctx trC e3 hmk hrt hC]
        intro hmem
        simp at hmem
        exact hC' hmem
    · rw [createAfterSysfs_tmpfsfail env root m ctx e2 hmk hrt]
      simp
  · rw [createAfterSysfs_mkfail env root m ctx e1 hmk]
    simp

theorem createAfterSysfs_mem_fail (env : FsEnv) (root : String) (m : CgMap)
    (ctx : String) (fl s t ft d : String) (r : MountResult) (e : String)
    (hmem : FsOp.mount fl s t ft d r ∈ (createAfterSysfs env root m ctx).1)
    (hfail : mountResErr r = some e) :
    ((createAfterSysfs env root m ctx).2 = some (errMounting t e) ∨
      (createAfterSysfs env root m ctx).2 = some (errRemountRO t e)) ∧
    ∃ pre, (createAfterSysfs env root m ctx).1 =
      pre ++ [FsOp.mount fl s t ft d r] := by
  rcases hmk : env.mkdirAll (root ++ "/sys/fs/cgroup") with _ | e1
  · rcases hrt : mountResErr (env.mount "nosuid,noexec,nodev,strictatime"
        "tmpfs" (root ++ "/sys/fs/cgroup") "tmpfs" (tmpfsOptions ctx))
      with _ | e2
    · rcases hC : mountControllers env root (GetV1ControllerDirs m)
        with ⟨trC, resC⟩
      rcases resC with _ | e3
      · rcases hS : makeSymlinks env (root ++ "/sys/fs/cgroup")
          (getV1ControllerSymlinks m) with ⟨trS, resS⟩
        rcases resS with _ | e4
        · rcases hmk3 : env.mkdirAll (root ++ "/sys/fs/cgroup/systemd")
            with _ | e5
          · rw [createAfterSysfs_final env root m ctx trC trS
              hmk hrt hC hS hmk3] at hmem ⊢
            rw [mountFsRO_fst] at hmem
            simp only [List.append_assoc, List.mem_append, List.mem_cons,
              List.not_mem_nil, or_false, List.mem_singleton,
              FsOp.mount.injEq, reduceCtorEq, false_or] at hmem
            rcases hmem with h | h | h | h
            · obtain ⟨hfl, hs, ht, hft, hd, hr⟩ := h
              subst hr
              rw [hrt] at hfail
              simp at hfail
            · obtain ⟨h1, _⟩ := mountControllers_mem_fail env root
                (GetV1ControllerDirs m) fl s t ft d r e (by rw [hC]; exact h)
                hfail
              rw [hC] at h1
              simp at h1
            · have hS2 := not_mount_makeSymlinks env (root ++ "/sys/fs/cgroup")
                (getV1ControllerSymlinks m) fl s t ft d r
              rw [hS] at hS2
              exact absurd h hS2
            · obtain ⟨hfl, hs, ht, hft, hd, hr⟩ := h
              subst hfl hs ht hft hd hr
              have hpair := mountFsRO_fail env (root ++ "/sys/fs/cgroup") e
                hfail
              constructor
              · right
                rw [hpair]
              · refine ⟨[FsOp.mkdir (root ++ "/sys/fs/cgroup") none,
                  FsOp.mount "nosuid,noexec,nodev,strictatime" "tmpfs"
                    (root ++ "/sys/fs/cgroup") "tmpfs" (tmpfsOptions ctx)
                    (env.mount "nosuid,noexec,nodev,strictatime" "tmpfs"
                      (root ++ "/sys/fs/cgroup") "tmpfs" (tmpfsOptions ctx))]
                  ++ trC ++ trS ++
                  [FsOp.mkdir (root ++ "/sys/fs/cgroup/systemd") none], ?_⟩
                rw [mountFsRO_fst]
          · rw [createAfterSysfs_sysdfail env root m ctx trC trS e5
              hmk hrt hC hS hmk3] at hmem ⊢
            simp only [List.append_assoc, List.mem_append, List.mem_cons,
              List.not_mem_nil, or_false, List.mem_singleton,
              FsOp.mount.injEq, reduceCtorEq, false_or] at hmem
            rcases hmem with h | h | h
            · obtain ⟨hfl, hs, ht, hft, hd, hr⟩ := h
              subst hr
              rw [hrt] at hfail
              simp at hfail
            · obtain ⟨h1, _⟩ := mountControllers_mem_fail env root
                (GetV1ControllerDirs m) fl s t ft d r e (by rw [hC]; exact h)
                hfail
              rw [hC] at h1
              simp at h1
            · have hS2 := not_mount_makeSymlinks env (root ++ "/sys/fs/cgroup")
                (getV1ControllerSymlinks m) fl s t ft d r
              rw [hS] at hS2
              exact absurd h hS2
        · rw [createAfterSysfs_symfail env root m ctx trC trS e4
            hmk hrt hC hS] at hmem ⊢
          simp only [List.append_assoc, List.mem_append, List.mem_cons,
            List.not_mem_nil, or_false, List.mem_singleton,
            FsOp.mount.injEq, reduceCtorEq, false_or] at hmem
          rcases hmem with h | h | h
          · obtain ⟨hfl, hs, ht, hft, hd, hr⟩ := h
            subst hr
            rw [hrt] at hfail
            simp at hfail
          · obtain ⟨h1, _⟩ := mountControllers_mem_fail env root
              (GetV1ControllerDirs m) fl s t ft d r e (by rw [hC]; exact h)
              hfail
            rw [hC] at h1
            simp at h1
          · have hS2 := not_mount_makeSymlinks env (root ++ "/sys/fs/cgroup")
              (getV1ControllerSymlinks m) fl s t ft d r
            rw [hS] at hS2
            exact absurd h hS2
      · rw [createAfterSysfs_loopfail env root m ctx trC e3 hmk hrt hC]
          at hmem ⊢
        simp only [List.mem_append, List.mem_cons, List.not_mem_nil,
          or_false, List.mem_singleton, FsOp.mount.injEq, reduceCtorEq,
          false_or] at hmem
        rcases hmem with h | h
        · obtain ⟨hfl, hs, ht, hft, hd, hr⟩ := h
          subst hr
          rw [hrt] at hfail
          simp at hfail
        · obtain ⟨h1, pre, hpre⟩ := mountControllers_mem_fail env root
            (GetV1ControllerDirs m) fl s t ft d r e (by rw [hC]; exact h)
            hfail
          rw [hC] at h1 hpre
          simp only at h1 hpre
          injection h1 with h1
          refine ⟨Or.inl (by rw [h1]), ?_⟩
          refine ⟨[FsOp.mkdir (root ++ "/sys/fs/cgroup") none,
            FsOp.mount "nosuid,noexec,nodev,strictatime" "tmpfs"
              (root ++ "/sys/fs/cgroup") "tmpfs" (tmpfsOptions ctx)
              (env.mount "nosuid,noexec,nodev,strictatime" "tmpfs"
                (root ++ "/sys/fs/cgroup") "tmpfs" (tmpfsOptions ctx))]
            ++ pre, ?_⟩
          rw [hpre]
          simp
    · rw [createAfterSysfs_tmpfsfail env root m ctx e2 hmk hrt] at hmem ⊢
      simp only [List.mem_cons, List.not_mem_nil, or_false,
        List.mem_singleton, FsOp.mount.injEq, reduceCtorEq,
        false_or] at hmem
      obtain ⟨hfl, hs, ht, hft, hd, hr⟩ := hmem
      subst hfl hs ht hft hd hr
      rw [hrt] at hfail
      injection hfail with he
      subst he
      exact ⟨Or.inl rfl, ⟨[FsOp.mkdir (root ++ "/sys/fs/cgroup") none],
        by simp⟩⟩
  · rw [createAfterSysfs_mkfail env root m ctx e1 hmk] at hmem
    simp at hmem

theorem CreateV1Cgroups_mkfail (env : FsEnv) (root : String) (m : CgMap)
    (ctx e : String) (hmk : env.mkdirAll (root ++ "/sys") = some e) :
    CreateV1Cgroups env root m ctx =
      ([FsOp.mkdir (root ++ "/sys") (some e)], some e) := by
  simp only [CreateV1Cgroups, hmk]

theorem CreateV1Cgroups_sysfsfail (env : FsEnv) (root : String) (m : CgMap)
    (ctx e : String) (hmk : env.mkdirAll (root ++ "/sys") = none)
    (hrs : env.mount "nosuid,noexec,nodev" "sysfs" (root ++ "/sys")
      "sysfs" "" = .err e) :
    CreateV1Cgroups env root m ctx =
      ([FsOp.mkdir (root ++ "/sys") none,
        FsOp.mount "nosuid,noexec,nodev" "sysfs" (root ++ "/sys") "sysfs" ""
          (.err e)],
        some (errMounting (root ++ "/sys") e)) := by
  simp only [CreateV1Cgroups, hmk, hrs]

theorem CreateV1Cgroups_proceed (env : FsEnv) (root : String) (m : CgMap)
    (ctx : String) (rs : MountResult)
    (hmk : env.mkdirAll (root ++ "/sys") = none)
    (hrs : env.mount "nosuid,noexec,nodev" "sysfs" (root ++ "/sys")
      "sysfs" "" = rs)
    (hok : rs = .ok ∨ rs = .ebusy) :
    CreateV1Cgroups env root m ctx =
      (FsOp.mkdir (root ++ "/sys") none ::
        FsOp.mount "nosuid,noexec,nodev" "sysfs" (root ++ "/sys") "sysfs" ""
          rs :: (createAfterSysfs env root m ctx).1,
        (createAfterSysfs env root m ctx).2) := by
  rcases hA : createAfterSysfs env root m ctx with ⟨tr, res⟩
  rcases hok with h | h <;> subst h <;>
    simp only [CreateV1Cgroups, hmk, hrs, hA]

/-- C6: in the Hierarchy Builder, (1) nothing is ever unmounted — there is
no rollback of already-performed mounts; (2) an `EBUSY` failure of the sysfs
mount at `<root>/sys` is tolerated and the build proceeds exactly as after a
successful sysfs mount; (3) any other failure of that sysfs mount aborts
immediately with an error wrapping the path `<root>/sys`; (4) every other
failing mount in any step makes the builder stop at that operation (the
failing mount is the last operation performed) and return an error wrapping
the offending path. -/
theorem v1_builder_mount_errors (env : FsEnv) (root : String) (m : CgMap)
    (ctx : String) :
    (∀ p, FsOp.unmount p ∉ (CreateV1Cgroups env root m ctx).1) ∧
    (env.mkdirAll (root ++ "/sys") = none →
      env.mount "nosuid,noexec,nodev" "sysfs" (root ++ "/sys") "sysfs" "" =
        .ebusy →
      CreateV1Cgroups env root m ctx =
        (FsOp.mkdir (root ++ "/sys") none ::
          FsOp.mount "nosuid,noexec,nodev" "sysfs" (root ++ "/sys") "sysfs" ""
            .ebusy :: (createAfterSysfs env root m ctx).1,
          (createAfterSysfs env root m ctx).2)) ∧
    (∀ e, env.mkdirAll (root ++ "/sys") = none →
      env.mount "nosuid,noexec,nodev" "sysfs" (root ++ "/sys") "sysfs" "" =
        .err e →
      CreateV1Cgroups env root m ctx =
        ([FsOp.mkdir (root ++ "/sys") none,
          FsOp.mount "nosuid,noexec,nodev" "sysfs" (root ++ "/sys") "sysfs" ""
            (.err e)],
          some (errMounting (root ++ "/sys") e))) ∧
    (∀ fl s t ft d r e,
      FsOp.mount fl s t ft d r ∈ (CreateV1Cgroups env root m ctx).1 →
      mountResErr r = some e → ¬(s = "sysfs" ∧ r = .ebusy) →
      ((CreateV1Cgroups env root m ctx).2 = some (errMounting t e) ∨
        (CreateV1Cgroups env root m ctx).2 = some (errRemountRO t e)) ∧
      ∃ pre, (CreateV1Cgroups env root m ctx).1 =
        pre ++ [FsOp.mount fl s t ft d r]) := by
  refine ⟨?_, ?_, ?_, ?_⟩
  · intro p
    rcases hmk : env.mkdirAll (root ++ "/sys") with _ | e1
    · rcases hrs : env.mount "nosuid,noexec,nodev" "sysfs" (root ++ "/sys")
        "sysfs" "" with _ | _ | e0
      · rw [CreateV1Cgroups_proceed env root m ctx .ok hmk hrs (Or.inl rfl)]
        intro hmem
        simp at hmem
        exact createAfterSysfs_no_unmount env root m ctx p hmem
      · rw [CreateV1Cgroups_proceed env root m ctx .ebusy hmk hrs
          (Or.inr rfl)]
        intro hmem
        simp at hmem
        exact createAfterSysfs_no_unmount env root m ctx p hmem
      · rw [CreateV1Cgroups_sysfsfail env root m ctx e0 hmk hrs]
        simp
    · rw [CreateV1Cgroups_mkfail env root m ctx e1 hmk]
      simp
  · intro hmk hrs
    exact CreateV1Cgroups_proceed env root m ctx .ebusy hmk hrs (Or.inr rfl)
  · intro e hmk hrs
    exact CreateV1Cgroups_sysfsfail env root m ctx e hmk hrs
  · intro fl s t ft d r e hmem hfail hexempt
    rcases hmk : env.mkdirAll (root ++ "/sys") with _ | e1
    · rcases hrs : env.mount "nosuid,noexec,nodev" "sysfs" (root ++ "/sys")
        "sysfs" "" with _ | _ | e0
      · rw [CreateV1Cgroups_proceed env root m ctx .ok hmk hrs (Or.inl rfl)]
          at hmem ⊢
        simp only [List.mem_cons, FsOp.mount.injEq, reduceCtorEq,
          false_or] at hmem
        rcases hmem with h | h
        · obtain ⟨hfl, hs, ht, hft, hd, hr⟩ := h
          subst hr
          simp [mountResErr] at hfail
        · obtain ⟨h1, pre, hpre⟩ :=
            createAfterSysfs_mem_fail env root m ctx fl s t ft d r e h hfail
          refine ⟨h1, ⟨FsOp.mkdir (root ++ "/sys") none ::
            FsOp.mount "nosuid,noexec,nodev" "sysfs" (root ++ "/sys")
              "sysfs" "" .ok :: pre, ?_⟩⟩
          rw [hpre]
          simp
      · rw [CreateV1Cgroups_proceed env root m ctx .ebusy hmk hrs
          (Or.inr rfl)] at hmem ⊢
        simp only [List.mem_cons, FsOp.mount.injEq, reduceCtorEq,
          false_or] at hmem
        rcases hmem with h | h
        · obtain ⟨hfl, hs, ht, hft, hd, hr⟩ := h
          exact absurd ⟨hs, hr⟩ hexempt
        · obtain ⟨h1, pre, hpre⟩ :=
            createAfterSysfs_mem_fail env root m ctx fl s t ft d r e h hfail
          refine ⟨h1, ⟨FsOp.mkdir (root ++ "/sys") none ::
            FsOp.mount "nosuid,noexec,nodev" "sysfs" (root ++ "/sys")
              "sysfs" "" .ebusy :: pre, ?_⟩⟩
          rw [hpre]
          simp
      · rw [CreateV1Cgroups_sysfsfail env root m ctx e0 hmk hrs] at hmem ⊢
        simp only [List.mem_cons, List.not_mem_nil, or_false,
          FsOp.mount.injEq, reduceCtorEq, false_or] at hmem
        obtain ⟨hfl, hs, ht, hft, hd, hr⟩ := hmem
        subst hfl hs ht hft hd hr
        injection hfail with he
        subst he
        exact ⟨Or.inl rfl,
          ⟨[FsOp.mkdir (root ++ "/sys") none], by simp⟩⟩
    · rw [CreateV1Cgroups_mkfail env root m ctx e1 hmk] at hmem
      simp at hmem

/-- An environment where every call succeeds except that the sysfs mount
reports `EBUSY`. -/
def envFsBusy : FsEnv :=
  ⟨fun _ => none,
   fun _ s _ _ _ => if s = "sysfs" then .ebusy else .ok,
   fun _ _ => none, fun _ => false, fun _ => none, fun _ _ => none⟩

/-- An environment where every call succeeds except that the sysfs mount
fails with a non-`EBUSY` error. -/
def envFsSysfsErr : FsEnv :=
  ⟨fun _ => none,
   fun _ s _ _ _ => if s = "sysfs" then .err "boom" else .ok,
   fun _ _ => none, fun _ => false, fun _ => none, fun _ _ => none⟩

/-- An environment where every call succeeds except that the tmpfs mount
fails. -/
def envFsTmpfsErr : FsEnv :=
  ⟨fun _ => none,
   fun _ s _ _ _ => if s = "tmpfs" then .err "boom" else .ok,
   fun _ _ => none, fun _ => false, fun _ => none, fun _ _ => none⟩

/-- C6 witness: the builder theorem applied to three concrete environments:
`EBUSY` at sysfs proceeds into the rest of the build, a plain sysfs error
aborts with the wrapped `/r/sys` message, and a failing tmpfs mount leaves
the failing mount as the last operation with a path-wrapped error. -/
theorem v1_builder_mount_errors_witness :
    (FsOp.unmount "/x" ∉ (CreateV1Cgroups envFsBusy "/r" [] "").1) ∧
    CreateV1Cgroups envFsBusy "/r" [] "" =
      (FsOp.mkdir ("/r" ++ "/sys") none ::
        FsOp.mount "nosuid,noexec,nodev" "sysfs" ("/r" ++ "/sys") "sysfs" ""
          .ebusy :: (createAfterSysfs envFsBusy "/r" [] "").1,
        (createAfterSysfs envFsBusy "/r" [] "").2) ∧
    CreateV1Cgroups envFsSysfsErr "/r" [] "" =
      ([FsOp.mkdir ("/r" ++ "/sys") none,
        FsOp.mount "nosuid,noexec,nodev" "sysfs" ("/r" ++ "/sys") "sysfs" ""
          (.err "boom")],
        some (errMounting ("/r" ++ "/sys") "boom")) ∧
    (((CreateV1Cgroups envFsTmpfsErr "/r" [] "").2 =
        some (errMounting ("/r" ++ "/sys/fs/cgroup") "boom") ∨
      (CreateV1Cgroups envFsTmpfsErr "/r" [] "").2 =
        some (errRemountRO ("/r" ++ "/sys/fs/cgroup") "boom")) ∧
      ∃ pre, (CreateV1Cgroups envFsTmpfsErr "/r" [] "").1 =
        pre ++ [FsOp.mount "nosuid,noexec,nodev,strictatime" "tmpfs"
          ("/r" ++ "/sys/fs/cgroup") "tmpfs" (tmpfsOptions "")
          (.err "boom")]) := by
  refine ⟨(v1_builder_mount_errors envFsBusy "/r" [] "").1 "/x",
    (v1_builder_mount_errors envFsBusy "/r" [] "").2.1 rfl rfl,
    (v1_builder_mount_errors envFsSysfsErr "/r" [] "").2.2.1 "boom" rfl rfl,
    ?_⟩
  have h := (v1_builder_mount_errors envFsTmpfsErr "/r" [] "").2.2.2
    "nosuid,noexec,nodev,strictatime" "tmpfs" ("/r" ++ "/sys/fs/cgroup")
    "tmpfs" (tmpfsOptions "") (.err "boom") "boom" (by decide) rfl (by decide)
  exact h

/-!
### Claim theorems: the cpuset knob workaround of the RW-Window Carver
-/

theorem string_append_right_inj (s a b : String) (h : a ≠ b) :
    s ++ a ≠ s ++ b := by
  intro he
  apply h
  rcases s with ⟨sd⟩
  rcases a with ⟨ad⟩
  rcases b with ⟨bd⟩
  have hd : sd ++ ad = sd ++ bd := congrArg String.data he
  exact congrArg String.mk (List.append_cancel_left hd)

theorem writesTo_append (a b : List FsOp) (p : String) :
    writesTo (a ++ b) p = writesTo a p ++ writesTo b p := by
  simp [writesTo, List.filterMap_append]

theorem writesTo_no_writes (tr : List FsOp) (p : String)
    (h : ∀ q d r, FsOp.write q d r ∉ tr) : writesTo tr p = [] := by
  induction tr with
  | nil => rfl
  | cons op rest ih =>
    have hop := h
    rcases op with _ | _ | _ | _ | _ | ⟨q, d, r⟩ <;>
      simp [writesTo] at ih ⊢ <;>
      try exact ih fun q d r hq => h q d r (List.mem_cons_of_mem _ hq)
    exact absurd (List.mem_cons_self _ _) (h q d r)

theorem writesTo_mountFsRO (env : FsEnv) (p q : String) :
    writesTo (mountFsRO env p).1 q = [] := by
  rw [mountFsRO_fst]
  simp [writesTo]

theorem writesTo_cons_mkdir (p : String) (r : Option String) (tr : List FsOp)
    (q : String) : writesTo (FsOp.mkdir p r :: tr) q = writesTo tr q := by
  simp [writesTo]

theorem writesTo_cons_mount (fl s t ft d : String) (r : MountResult)
    (tr : List FsOp) (q : String) :
    writesTo (FsOp.mount fl s t ft d r :: tr) q = writesTo tr q := by
  simp [writesTo]

theorem bindRWFiles_skip (env : FsEnv) (app f : String) (rest : List String)
    (hst : env.statNotExist (app ++ "/" ++ f) = true) :
    bindRWFiles env app (f :: rest) = bindRWFiles env app rest := by
  simp only [bindRWFiles, hst, if_true]

theorem bindRWFiles_fail (env : FsEnv) (app f : String) (rest : List String)
    (e : String) (hst : env.statNotExist (app ++ "/" ++ f) = false)
    (hmr : mountResErr (env.mount "bind" (app ++ "/" ++ f)
      (app ++ "/" ++ f) "" "") = some e) :
    bindRWFiles env app (f :: rest) =
      ([FsOp.mount "bind" (app ++ "/" ++ f) (app ++ "/" ++ f) "" ""
        (env.mount "bind" (app ++ "/" ++ f) (app ++ "/" ++ f) "" "")],
        some (errBindMounting (app ++ "/" ++ f) e)) := by
  simp only [bindRWFiles, hst, if_false, Bool.false_eq_true, hmr]

theorem bindRWFiles_ok (env : FsEnv) (app f : String) (rest : List String)
    (hst : env.statNotExist (app ++ "/" ++ f) = false)
    (hmr : mountResErr (env.mount "bind" (app ++ "/" ++ f)
      (app ++ "/" ++ f) "" "") = none) :
    bindRWFiles env app (f :: rest) =
      (FsOp.mount "bind" (app ++ "/" ++ f) (app ++ "/" ++ f) "" ""
        (env.mount "bind" (app ++ "/" ++ f) (app ++ "/" ++ f) "" "") ::
        (bindRWFiles env app rest).1, (bindRWFiles env app rest).2) := by
  simp only [bindRWFiles, hst, if_false, Bool.false_eq_true, hmr]

theorem writesTo_bindRWFiles (env : FsEnv) (app : String) :
    ∀ (fs : List String) (q : String),
      writesTo (bindRWFiles env app fs).1 q = [] := by
  intro fs
  induction fs with
  | nil => intro q; rfl
  | cons f rest ih =>
    intro q
    rcases hst : env.statNotExist (app ++ "/" ++ f) with _ | _
    · rcases hmr : mountResErr (env.mount "bind" (app ++ "/" ++ f)
          (app ++ "/" ++ f) "" "") with _ | e
      · rw [bindRWFiles_ok env app f rest hst hmr]
        rw [show ((FsOp.mount "bind" (app ++ "/" ++ f) (app ++ "/" ++ f)
          "" "" (env.mount "bind" (app ++ "/" ++ f) (app ++ "/" ++ f) "" "")
          :: (bindRWFiles env app rest).1,
          (bindRWFiles env app rest).2)).1 =
          FsOp.mount "bind" (app ++ "/" ++ f) (app ++ "/" ++ f) "" ""
            (env.mount "bind" (app ++ "/" ++ f) (app ++ "/" ++ f) "" "") ::
          (bindRWFiles env app rest).1 from rfl]
        rw [writesTo_cons_mount]
        exact ih q
      · rw [bindRWFiles_fail env app f rest e hst hmr]
        simp [writesTo]
    · rw [bindRWFiles_skip env app f rest hst]
      exact ih q

theorem carveServices_mkfail (env : FsEnv) (subP c svc : String)
    (rest : List String) (e : String)
    (hmk : env.mkdirAll (subP ++ "/" ++ svc) = some e) :
    carveServices env subP c (svc :: rest) =
      ([FsOp.mkdir (subP ++ "/" ++ svc) (some e)], some e) := by
  simp only [carveServices, hmk]

theorem carveServices_bindfail (env : FsEnv) (subP c svc : String)
    (rest : List String) (trB : List FsOp) (e : String)
    (hmk : env.mkdirAll (subP ++ "/" ++ svc) = none)
    (hB : bindRWFiles env (subP ++ "/" ++ svc) (getV1ControllerRWFiles c) =
      (trB, some e)) :
    carveServices env subP c (svc :: rest) =
      (FsOp.mkdir (subP ++ "/" ++ svc) none :: trB, some e) := by
  simp only [carveServices, hmk, hB]

theorem carveServices_svc_ok (env : FsEnv) (subP c svc : String)
    (rest : List String) (trB : List FsOp)
    (hmk : env.mkdirAll (subP ++ "/" ++ svc) = none)
    (hB : bindRWFiles env (subP ++ "/" ++ svc) (getV1ControllerRWFiles c) =
      (trB, none)) :
    carveServices env subP c (svc :: rest) =
      (FsOp.mkdir (subP ++ "/" ++ svc) none ::
        (trB ++ (carveServices env subP c rest).1),
        (carveServices env subP c rest).2) := by
  simp only [carveServices, hmk, hB]

theorem writesTo_carveServices (env : FsEnv) (subP c : String) :
    ∀ (svcs : List String) (q : String),
      writesTo (carveServices env subP c svcs).1 q = [] := by
  intro svcs
  induction svcs with
  | nil => intro q; rfl
  | cons svc rest ih =>
    intro q
    rcases hmk : env.mkdirAll (subP ++ "/" ++ svc) with _ | e
    · rcases hB : bindRWFiles env (subP ++ "/" ++ svc)
        (getV1ControllerRWFiles c) with ⟨trB, resB⟩
      have hBw := writesTo_bindRWFiles env (subP ++ "/" ++ svc)
        (getV1ControllerRWFiles c) q
      rw [hB] at hBw
      have hBw' : writesTo trB q = [] := hBw
      rcases resB with _ | e2
      · rw [carveServices_svc_ok env subP c svc rest trB hmk hB]
        rw [show ((FsOp.mkdir (subP ++ "/" ++ svc) none ::
          (trB ++ (carveServices env subP c rest).1),
          (carveServices env subP c rest).2)).1 =
          FsOp.mkdir (subP ++ "/" ++ svc) none ::
            (trB ++ (carveServices env subP c rest).1) from rfl]
        rw [writesTo_cons_mkdir, writesTo_append, hBw', ih q]
        rfl
      · rw [carveServices_bindfail env subP c svc rest trB e2 hmk hB]
        rw [show ((FsOp.mkdir (subP ++ "/" ++ svc) none :: trB,
          some e2)).1 = FsOp.mkdir (subP ++ "/" ++ svc) none :: trB from rfl]
        rw [writesTo_cons_mkdir]
        exact hBw'
    · rw [carveServices_mkfail env subP c svc rest e hmk]
      simp [writesTo]

theorem fixKnob_writes_self (env : FsEnv) (cpusetPath knob : String)
    (d p : String)
    (hc : env.readFile (childKnobFile cpusetPath knob) = some d)
    (hp : env.readFile (parentKnobFile cpusetPath knob) = some p) :
    writesTo (fixKnob env cpusetPath knob)
      (childKnobFile cpusetPath knob) =
      if trimSpace d = "" then [p, p] else [] := by
  simp only [fixKnob]
  rw [hc]
  by_cases ht : trimSpace d = ""
  · simp only [ht, if_pos rfl, ne_eq, not_true_eq_false, if_false]
    rw [hp]
    simp [writesTo, ht]
  · simp [writesTo, ht]

theorem fixKnob_writes_other (env : FsEnv) (cpusetPath knob q : String)
    (hq : q ≠ childKnobFile cpusetPath knob) :
    writesTo (fixKnob env cpusetPath knob) q = [] := by
  have hq' : ¬(childKnobFile cpusetPath knob = q) := fun h => hq h.symm
  simp only [fixKnob]
  rcases env.readFile (childKnobFile cpusetPath knob) with _ | d
  · simp [writesTo]
  · by_cases ht : trimSpace d = ""
    · simp only [ht, ne_eq, not_true_eq_false, if_false]
      rcases env.readFile (parentKnobFile cpusetPath knob) with _ | p
      · simp [writesTo]
      · simp [writesTo, hq']
    · simp [writesTo, ht]

theorem fixCpusetKnobs_writes (env : FsEnv) (cpusetPath knob : String)
    (d p : String) (hknob : knob = "cpuset.mems" ∨ knob = "cpuset.cpus")
    (hc : env.readFile (childKnobFile cpusetPath knob) = some d)
    (hp : env.readFile (parentKnobFile cpusetPath knob) = some p) :
    writesTo (fixCpusetKnobs env cpusetPath)
      (childKnobFile cpusetPath knob) =
      if trimSpace d = "" then [p, p] else [] := by
  have hne : ("cpuset.mems" : String) ≠ "cpuset.cpus" := by decide
  unfold fixCpusetKnobs
  rcases hknob with h | h <;> subst h
  · rw [show writesTo (FsOp.mkdir (cpusetPath ++ "/system.slice")
      (env.mkdirAll (cpusetPath ++ "/system.slice")) ::
      (fixKnob env cpusetPath "cpuset.mems" ++
        fixKnob env cpusetPath "cpuset.cpus"))
      (childKnobFile cpusetPath "cpuset.mems") =
      writesTo (fixKnob env cpusetPath "cpuset.mems")
        (childKnobFile cpusetPath "cpuset.mems") ++
      writesTo (fixKnob env cpusetPath "cpuset.cpus")
        (childKnobFile cpusetPath "cpuset.mems") from by
        simp [writesTo, List.filterMap_append]]
    rw [fixKnob_writes_self env cpusetPath "cpuset.mems" d p hc hp,
      fixKnob_writes_other env cpusetPath "cpuset.cpus"
        (childKnobFile cpusetPath "cpuset.mems")
        (string_append_right_inj _ _ _ hne)]
    simp
  · rw [show writesTo (FsOp.mkdir (cpusetPath ++ "/system.slice")
      (env.mkdirAll (cpusetPath ++ "/system.slice")) ::
      (fixKnob env cpusetPath "cpuset.mems" ++
        fixKnob env cpusetPath "cpuset.cpus"))
      (childKnobFile cpusetPath "cpuset.cpus") =
      writesTo (fixKnob env cpusetPath "cpuset.mems")
        (childKnobFile cpusetPath "cpuset.cpus") ++
      writesTo (fixKnob env cpusetPath "cpuset.cpus")
        (childKnobFile cpusetPath "cpuset.cpus") from by
        simp [writesTo, List.filterMap_append]]
    rw [fixKnob_writes_self env cpusetPath "cpuset.cpus" d p hc hp,
      fixKnob_writes_other env cpusetPath "cpuset.mems"
        (childKnobFile cpusetPath "cpuset.cpus")
        (string_append_right_inj _ _ _ (Ne.symm hne))]
    simp

theorem carveControllers_svcfail (env : FsEnv) (cg sub c : String)
    (svcs : List String) (rest : List String) (trS : List FsOp) (e : String)
    (hS : carveServices env
      (((cg ++ "/" ++ c) ++ "/" ++ sub ++ "/system.slice")) c svcs =
      (trS, some e)) :
    carveControllers env cg sub svcs (c :: rest) =
      ((if c = "cpuset" then fixCpusetKnobs env (cg ++ "/" ++ c) else []) ++
        trS, some e) := by
  simp only [carveControllers, hS]

theorem carveControllers_rofail (env : FsEnv) (cg sub c : String)
    (svcs : List String) (rest : List String) (trS : List FsOp) (e : String)
    (hS : carveServices env
      (((cg ++ "/" ++ c) ++ "/" ++ sub ++ "/system.slice")) c svcs =
      (trS, none))
    (hro : mountResErr (env.mount roRemountFlags (cg ++ "/" ++ c)
      (cg ++ "/" ++ c) "" "") = some e) :
    carveControllers env cg sub svcs (c :: rest) =
      ((if c = "cpuset" then fixCpusetKnobs env (cg ++ "/" ++ c) else []) ++
        trS ++ [FsOp.mount roRemountFlags (cg ++ "/" ++ c) (cg ++ "/" ++ c)
          "" "" (env.mount roRemountFlags (cg ++ "/" ++ c) (cg ++ "/" ++ c)
          "" "")],
        some (errRemountRO (cg ++ "/" ++ c) e)) := by
  simp only [carveControllers, hS, mountFsRO_fail env (cg ++ "/" ++ c) e hro]

theorem carveControllers_step_ok (env : FsEnv) (cg sub c : String)
    (svcs : List String) (rest : List String) (trS : List FsOp)
    (hS : carveServices env
      (((cg ++ "/" ++ c) ++ "/" ++ sub ++ "/system.slice")) c svcs =
      (trS, none))
    (hro : mountResErr (env.mount roRemountFlags (cg ++ "/" ++ c)
      (cg ++ "/" ++ c) "" "") = none) :
    carveControllers env cg sub svcs (c :: rest) =
      ((if c = "cpuset" then fixCpusetKnobs env (cg ++ "/" ++ c) else []) ++
        trS ++ [FsOp.mount roRemountFlags (cg ++ "/" ++ c) (cg ++ "/" ++ c)
          "" "" (env.mount roRemountFlags (cg ++ "/" ++ c) (cg ++ "/" ++ c)
          "" "")] ++ (carveControllers env cg sub svcs rest).1,
        (carveControllers env cg sub svcs rest).2) := by
  rcases hrec : carveControllers env cg sub svcs rest with ⟨tr, res⟩
  simp only [carveControllers, hS, mountFsRO_ok env (cg ++ "/" ++ c) hro,
    hrec]

theorem carveControllers_writes (env : FsEnv) (cg sub : String)
    (svcs : List String) :
    ∀ (cs : List String) (tr : List FsOp),
      carveControllers env cg sub svcs cs = (tr, none) →
      ∀ q, writesTo tr q =
        (List.replicate (cs.count "cpuset")
          (writesTo (fixCpusetKnobs env (cg ++ "/" ++ "cpuset")) q)).join := by
  intro cs
  induction cs with
  | nil =>
    intro tr htr q
    injection htr with h1 _
    subst h1
    rfl
  | cons c rest ih =>
    intro tr htr q
    rcases hS : carveServices env
      (((cg ++ "/" ++ c) ++ "/" ++ sub ++ "/system.slice")) c svcs
      with ⟨trS, resS⟩
    have hSw : writesTo trS q = [] := by
      have := writesTo_carveServices env
        (((cg ++ "/" ++ c) ++ "/" ++ sub ++ "/system.slice")) c svcs q
      rw [hS] at this
      exact this
    rcases resS with _ | e
    · rcases hro : mountResErr (env.mount roRemountFlags (cg ++ "/" ++ c)
        (cg ++ "/" ++ c) "" "") with _ | e2
      · rw [carveControllers_step_ok env cg sub c svcs rest trS hS hro]
          at htr
        rcases hrec : carveControllers env cg sub svcs rest with ⟨tr', res'⟩
        rw [hrec] at htr
        injection htr with h1 h2
        subst h1
        have hrw := ih tr' (by rw [hrec, ← h2]) q
        by_cases hc : c = "cpuset"
        · subst hc
          rw [List.count_cons]
          simp only [beq_self_eq_true, if_true, List.replicate_succ,
            List.join_cons]
          rw [writesTo_append, writesTo_append, writesTo_append, hSw,
            writesTo_cons_mount]
          simp only [if_pos rfl, hrw]
          simp [writesTo]
        · rw [List.count_cons]
          have hb : ¬((c == "cpuset") = true) := by simp [hc]
          rw [if_neg hb, Nat.add_zero]
          rw [writesTo_append, writesTo_append, writesTo_append, if_neg hc,
            hSw, writesTo_cons_mount]
          simp only [writesTo, List.filterMap_nil, List.nil_append]
          exact hrw
      · rw [carveControllers_rofail env cg sub c svcs rest trS e2 hS hro]
          at htr
        injection htr with _ h2
        simp at h2
    · rw [carveControllers_svcfail env cg sub c svcs rest trS e hS] at htr
      injection htr with _ h2
      simp at h2

theorem RemountV1CgroupsRO_carvefail (env : FsEnv) (root : String)
    (m : CgMap) (sub : String) (svcs : List String) (tr : List FsOp)
    (e : String)
    (hcv : carveControllers env (root ++ "/sys/fs/cgroup") sub svcs
      (GetV1ControllerDirs m) = (tr, some e)) :
    RemountV1CgroupsRO env root m sub svcs = (tr, some e) := by
  simp only [RemountV1CgroupsRO, hcv]

theorem RemountV1CgroupsRO_carve_ok (env : FsEnv) (root : String)
    (m : CgMap) (sub : String) (svcs : List String) (tr : List FsOp)
    (hcv : carveControllers env (root ++ "/sys/fs/cgroup") sub svcs
      (GetV1ControllerDirs m) = (tr, none)) :
    RemountV1CgroupsRO env root m sub svcs =
      (tr ++ (mountFsRO env (root ++ "/sys")).1,
        (mountFsRO env (root ++ "/sys")).2) := by
  rcases hro : mountFsRO env (root ++ "/sys") with ⟨trRO, resRO⟩
  simp only [RemountV1CgroupsRO, hcv, hro]

theorem bindRWFiles_congr (env env' : FsEnv) (app : String)
    (h2 : env'.mount = env.mount)
    (h4 : env'.statNotExist = env.statNotExist) :
    ∀ fs, bindRWFiles env' app fs = bindRWFiles env app fs := by
  intro fs
  induction fs with
  | nil => rfl
  | cons f rest ih => simp only [bindRWFiles, h2, h4, ih]

theorem carveServices_congr (env env' : FsEnv) (subP c : String)
    (h1 : env'.mkdirAll = env.mkdirAll)
    (h2 : env'.mount = env.mount)
    (h4 : env'.statNotExist = env.statNotExist) :
    ∀ svcs, carveServices env' subP c svcs = carveServices env subP c svcs := by
  intro svcs
  induction svcs with
  | nil => rfl
  | cons svc rest ih =>
    simp only [carveServices, h1,
      bindRWFiles_congr env env' _ h2 h4, ih]

theorem carveControllers_snd_congr (env env' : FsEnv) (cg sub : String)
    (svcs : List String)
    (h1 : env'.mkdirAll = env.mkdirAll)
    (h2 : env'.mount = env.mount)
    (h4 : env'.statNotExist = env.statNotExist) :
    ∀ cs, (carveControllers env' cg sub svcs cs).2 =
      (carveControllers env cg sub svcs cs).2 := by
  intro cs
  induction cs with
  | nil => rfl
  | cons c rest ih =>
    rcases hS : carveServices env
      (((cg ++ "/" ++ c) ++ "/" ++ sub ++ "/system.slice")) c svcs
      with ⟨trS, resS⟩
    have hS' : carveServices env'
        (((cg ++ "/" ++ c) ++ "/" ++ sub ++ "/system.slice")) c svcs =
        (trS, resS) := by
      rw [carveServices_congr env env' _ c h1 h2 h4, hS]
    rcases resS with _ | e
    · rcases hro : mountResErr (env.mount roRemountFlags (cg ++ "/" ++ c)
        (cg ++ "/" ++ c) "" "") with _ | e2
      · have hro' : mountResErr (env'.mount roRemountFlags (cg ++ "/" ++ c)
            (cg ++ "/" ++ c) "" "") = none := by rw [h2, hro]
        rw [carveControllers_step_ok env cg sub c svcs rest trS hS hro,
          carveControllers_step_ok env' cg sub c svcs rest trS hS' hro']
        exact ih
      · have hro' : mountResErr (env'.mount roRemountFlags (cg ++ "/" ++ c)
            (cg ++ "/" ++ c) "" "") = some e2 := by rw [h2, hro]
        rw [carveControllers_rofail env cg sub c svcs rest trS e2 hS hro,
          carveControllers_rofail env' cg sub c svcs rest trS e2 hS' hro']
    · rw [carveControllers_svcfail env cg sub c svcs rest trS e hS,
        carveControllers_svcfail env' cg sub c svcs rest trS e hS']

/-- C9: the cpuset pre-step of the bulk RW-Window Carver.  (A) For either
knob (`cpuset.mems`, `cpuset.cpus`), when both the knob file under
`system.slice` and its parent are readable, the workaround writes the
parent's value to the knob exactly twice in a row when the knob's current
content is blank after trimming whitespace, and writes nothing when it is
already configured.  (B) In a successful bulk carve whose controller
directories contain `cpuset` once, the writes of the whole carve to that
knob file are exactly those.  (C) No failure in the pre-step is ever
reported: the carver's error outcome does not depend on the read/write
results at all (and `fixCpusetKnobs` by construction returns no error). -/
theorem cpuset_knob_double_write (env : FsEnv) (root sub : String)
    (m : CgMap) (svcs : List String) (knob : String)
    (hknob : knob = "cpuset.mems" ∨ knob = "cpuset.cpus") :
    (∀ cpusetPath d p : String,
      env.readFile (childKnobFile cpusetPath knob) = some d →
      env.readFile (parentKnobFile cpusetPath knob) = some p →
      writesTo (fixCpusetKnobs env cpusetPath)
        (childKnobFile cpusetPath knob) =
        if trimSpace d = "" then [p, p] else []) ∧
    ((RemountV1CgroupsRO env root m sub svcs).2 = none →
      (GetV1ControllerDirs m).count "cpuset" = 1 →
      ∀ d p : String,
        env.readFile (childKnobFile
          ((root ++ "/sys/fs/cgroup") ++ "/" ++ "cpuset") knob) = some d →
        env.readFile (parentKnobFile
          ((root ++ "/sys/fs/cgroup") ++ "/" ++ "cpuset") knob) = some p →
        writesTo (RemountV1CgroupsRO env root m sub svcs).1
          (childKnobFile ((root ++ "/sys/fs/cgroup") ++ "/" ++ "cpuset")
            knob) =
          if trimSpace d = "" then [p, p] else []) ∧
    (∀ env' : FsEnv, env'.mkdirAll = env.mkdirAll →
      env'.mount = env.mount → env'.symlinkRes = env.symlinkRes →
      env'.statNotExist = env.statNotExist →
      (RemountV1CgroupsRO env' root m sub svcs).2 =
        (RemountV1CgroupsRO env root m sub svcs).2) := by
  refine ⟨?_, ?_, ?_⟩
  · intro cpusetPath d p hc hp
    exact fixCpusetKnobs_writes env cpusetPath knob d p hknob hc hp
  · intro hres hcount d p hc hp
    rcases hcv : carveControllers env (root ++ "/sys/fs/cgroup") sub svcs
      (GetV1ControllerDirs m) with ⟨tr, resC⟩
    rcases resC with _ | e
    · rw [RemountV1CgroupsRO_carve_ok env root m sub svcs tr hcv]
      rw [show ((tr ++ (mountFsRO env (root ++ "/sys")).1,
        (mountFsRO env (root ++ "/sys")).2)).1 =
        tr ++ (mountFsRO env (root ++ "/sys")).1 from rfl]
      rw [writesTo_append, writesTo_mountFsRO, List.append_nil]
      rw [carveControllers_writes env (root ++ "/sys/fs/cgroup") sub svcs
        (GetV1ControllerDirs m) tr hcv _, hcount]
      rw [fixCpusetKnobs_writes env ((root ++ "/sys/fs/cgroup") ++ "/" ++
        "cpuset") knob d p hknob hc hp]
      simp
    · rw [RemountV1CgroupsRO_carvefail env root m sub svcs tr e hcv] at hres
      simp at hres
  · intro env' h1 h2 h3 h4
    rcases hcv : carveControllers env (root ++ "/sys/fs/cgroup") sub svcs
      (GetV1ControllerDirs m) with ⟨tr, resC⟩
    rcases hcv' : carveControllers env' (root ++ "/sys/fs/cgroup") sub svcs
      (GetV1ControllerDirs m) with ⟨tr', resC'⟩
    have hsnd := carveControllers_snd_congr env env'
      (root ++ "/sys/fs/cgroup") sub svcs h1 h2 h4 (GetV1ControllerDirs m)
    rw [hcv, hcv'] at hsnd
    simp only at hsnd
    rcases resC with _ | e
    · rw [hsnd] at hcv'
      rw [RemountV1CgroupsRO_carve_ok env root m sub svcs tr hcv,
        RemountV1CgroupsRO_carve_ok env' root m sub svcs tr' hcv']
      rw [show ((tr' ++ (mountFsRO env' (root ++ "/sys")).1,
        (mountFsRO env' (root ++ "/sys")).2)).2 =
        (mountFsRO env' (root ++ "/sys")).2 from rfl]
      rw [show ((tr ++ (mountFsRO env (root ++ "/sys")).1,
        (mountFsRO env (root ++ "/sys")).2)).2 =
        (mountFsRO env (root ++ "/sys")).2 from rfl]
      simp only [mountFsRO, h2]
    · rw [hsnd] at hcv'
      rw [RemountV1CgroupsRO_carvefail env root m sub svcs tr e hcv,
        RemountV1CgroupsRO_carvefail env' root m sub svcs tr' e hcv']

/-- A carver environment: every mkdir/mount/stat succeeds, the
`cpuset.mems` knob under `system.slice` reads back blank, and every other
file reads back `0-3`. -/
def envW : FsEnv :=
  ⟨fun _ => none, fun _ _ _ _ _ => .ok, fun _ _ => none, fun _ => false,
   fun pth =>
     if pth = childKnobFile (("/r" ++ "/sys/fs/cgroup") ++ "/" ++ "cpuset")
       "cpuset.mems" then some "" else some "0-3",
   fun _ _ => none⟩

/-- The same environment with every file read failing. -/
def envWFail : FsEnv :=
  ⟨fun _ => none, fun _ _ _ _ _ => .ok, fun _ _ => none, fun _ => false,
   fun _ => none, fun _ _ => none⟩

/-- C9 witness: with a blank `cpuset.mems` knob whose parent reads `0-3`,
the workaround writes `0-3` exactly twice, both in isolation and across the
whole successful carve of the single `cpuset` hierarchy; and making every
read fail leaves the carver's error outcome unchanged. -/
theorem cpuset_knob_double_write_witness :
    writesTo (fixCpusetKnobs envW
        (("/r" ++ "/sys/fs/cgroup") ++ "/" ++ "cpuset"))
      (childKnobFile (("/r" ++ "/sys/fs/cgroup") ++ "/" ++ "cpuset")
        "cpuset.mems") = ["0-3", "0-3"] ∧
    writesTo (RemountV1CgroupsRO envW "/r" [(1, ["cpuset"])] "pod"
        ["svc"]).1
      (childKnobFile (("/r" ++ "/sys/fs/cgroup") ++ "/" ++ "cpuset")
        "cpuset.mems") = ["0-3", "0-3"] ∧
    (RemountV1CgroupsRO envWFail "/r" [(1, ["cpuset"])] "pod" ["svc"]).2 =
      (RemountV1CgroupsRO envW "/r" [(1, ["cpuset"])] "pod" ["svc"]).2 := by
  have h := cpuset_knob_double_write envW "/r" "pod" [(1, ["cpuset"])]
    ["svc"] "cpuset.mems" (Or.inl rfl)
  refine ⟨?_, ?_, ?_⟩
  · have hA := h.1 (("/r" ++ "/sys/fs/cgroup") ++ "/" ++ "cpuset") "" "0-3"
      rfl rfl
    rw [hA, if_pos (by decide)]
  · have hB := h.2.1 (by decide) (by decide) "" "0-3" rfl rfl
    rw [hB, if_pos (by decide)]
  · exact h.2.2 envWFail rfl rfl rfl rfl

end Cgroup
